import Mathlib

/-!
Verification development for the ResCanvas generation pipeline
(src/backend/services/llm_service.py).

The Python service manipulates JSON-decoded values (dicts, lists, strings,
numbers, booleans, None).  We shallowly embed those values as the inductive
type PyVal below and translate each function of the service into a Lean
function over PyVal.  Machine floats of the source are modelled as exact
rationals; nonfinite float literals (inf/nan) are outside the model and make
the string-to-float coercion fail.  Operations that can raise a Python
exception are Option-valued (none = the operation raises); pipeline
functions that contain no handler propagate that none.

Backend network calls are modelled by their outcome, an
Except String PyVal: .error msg is a raised exception (msg = str(e), the
detail text), .ok v is the JSON-decoded reply.  The openai_prompt_to_json
early return for a missing API key also produces an error payload and is
subsumed by the .error case (both yield a dict carrying an "error" key).
-/

attribute [local semireducible] Rat.add Rat.mul Rat.sub Rat.inv Rat.ofScientific

/-- PyVal is the type of JSON-decoded Python values manipulated by the
service: None, booleans, numbers (ints and floats, modelled as exact
rationals), strings, lists, and dicts (association lists in insertion
order; Python dicts have unique keys, and all operations below read the
first occurrence of a key, which agrees with Python on unique-key dicts). -/
inductive PyVal where
  | none : PyVal
  | bool : Bool → PyVal
  | num : ℚ → PyVal
  | str : String → PyVal
  | arr : List PyVal → PyVal
  | obj : List (String × PyVal) → PyVal
deriving Repr

mutual

/-- Structural equality test on PyVal (Python == restricted to the
string-keyed comparisons the service performs). -/
def PyVal.beq : PyVal → PyVal → Bool
  | .none, .none => true
  | .bool a, .bool b => a == b
  | .num a, .num b => a == b
  | .str a, .str b => a == b
  | .arr a, .arr b => PyVal.beqList a b
  | .obj a, .obj b => PyVal.beqKvs a b
  | _, _ => false

/-- Elementwise equality of PyVal lists. -/
def PyVal.beqList : List PyVal → List PyVal → Bool
  | [], [] => true
  | x :: xs, y :: ys => PyVal.beq x y && PyVal.beqList xs ys
  | _, _ => false

/-- Elementwise equality of key/value binding lists. -/
def PyVal.beqKvs : List (String × PyVal) → List (String × PyVal) → Bool
  | [], [] => true
  | (k1, v1) :: r1, (k2, v2) :: r2 =>
      k1 == k2 && PyVal.beq v1 v2 && PyVal.beqKvs r1 r2
  | _, _ => false

end

instance : BEq PyVal := ⟨PyVal.beq⟩

mutual

theorem PyVal.eq_of_beq : ∀ {a b : PyVal}, PyVal.beq a b = true → a = b
  | .none, .none, _ => rfl
  | .bool _, .bool _, h => by
      simp only [PyVal.beq, beq_iff_eq] at h; exact congrArg PyVal.bool h
  | .num _, .num _, h => by
      simp only [PyVal.beq, beq_iff_eq] at h; exact congrArg PyVal.num h
  | .str _, .str _, h => by
      simp only [PyVal.beq, beq_iff_eq] at h; exact congrArg PyVal.str h
  | .arr _, .arr _, h => congrArg PyVal.arr (PyVal.eqList_of_beq h)
  | .obj _, .obj _, h => congrArg PyVal.obj (PyVal.eqKvs_of_beq h)

theorem PyVal.eqList_of_beq :
    ∀ {a b : List PyVal}, PyVal.beqList a b = true → a = b
  | [], [], _ => rfl
  | x :: xs, y :: ys, h => by
      simp only [PyVal.beqList, Bool.and_eq_true] at h
      rw [PyVal.eq_of_beq h.1, PyVal.eqList_of_beq h.2]

theorem PyVal.eqKvs_of_beq :
    ∀ {a b : List (String × PyVal)}, PyVal.beqKvs a b = true → a = b
  | [], [], _ => rfl
  | (k1, v1) :: r1, (k2, v2) :: r2, h => by
      simp only [PyVal.beqKvs, Bool.and_eq_true, beq_iff_eq] at h
      rw [h.1.1, PyVal.eq_of_beq h.1.2, PyVal.eqKvs_of_beq h.2]

end

mutual

theorem PyVal.beq_refl : ∀ a : PyVal, PyVal.beq a a = true
  | .none => rfl
  | .bool b => by simp [PyVal.beq]
  | .num q => by simp [PyVal.beq]
  | .str s => by simp [PyVal.beq]
  | .arr l => PyVal.beqList_refl l
  | .obj l => PyVal.beqKvs_refl l

theorem PyVal.beqList_refl : ∀ l : List PyVal, PyVal.beqList l l = true
  | [] => rfl
  | x :: xs => by
      simp only [PyVal.beqList, Bool.and_eq_true]
      exact ⟨PyVal.beq_refl x, PyVal.beqList_refl xs⟩

theorem PyVal.beqKvs_refl :
    ∀ l : List (String × PyVal), PyVal.beqKvs l l = true
  | [] => rfl
  | (k, v) :: r => by
      simp only [PyVal.beqKvs, Bool.and_eq_true, beq_self_eq_true]
      exact ⟨⟨trivial, PyVal.beq_refl v⟩, PyVal.beqKvs_refl r⟩

end

instance : DecidableEq PyVal := fun a b =>
  if h : PyVal.beq a b = true then
    isTrue (PyVal.eq_of_beq h)
  else
    isFalse (fun he => h (he ▸ PyVal.beq_refl a))

namespace PyVal

/-- Python truthiness: None, False, 0, "", [], and \x7b\x7d are falsy. -/
def truthy : PyVal → Bool
  | .none => false
  | .bool b => b
  | .num q => q != 0
  | .str s => s != ""
  | .arr l => !l.isEmpty
  | .obj l => !l.isEmpty

/-- Python `a or b`: the first operand if truthy, else the second. -/
def pyOr (a b : PyVal) : PyVal := if a.truthy then a else b

end PyVal

/-- First binding of a key in an association list (Python dict lookup). -/
def alistGet (kvs : List (String × PyVal)) (k : String) : Option PyVal :=
  (kvs.find? (fun kv => kv.1 == k)).map (fun kv => kv.2)

/-- Key-presence test (Python `k in d`). -/
def alistHas (kvs : List (String × PyVal)) (k : String) : Bool :=
  kvs.any (fun kv => kv.1 == k)

/-- Lookup with default (Python d.get(k, default) on a dict). -/
def alistGetD (kvs : List (String × PyVal)) (k : String) (d : PyVal) : PyVal :=
  (alistGet kvs k).getD d

/-- Python `d[k] = v` on a dict: overwrite the first binding in place,
preserving insertion order, or append a new binding at the end. -/
def alistSet : List (String × PyVal) → String → PyVal → List (String × PyVal)
  | [], k, v => [(k, v)]
  | (k', v') :: rest, k, v =>
      if k' == k then (k, v) :: rest else (k', v') :: alistSet rest k v

/-- Whitespace strip on both ends of a character list (Python str.strip()
as performed by int() and float() on their argument). -/
def trimChars (cs : List Char) : List Char :=
  ((cs.dropWhile Char.isWhitespace).reverse.dropWhile Char.isWhitespace).reverse

/-- Prefix test on character lists. -/
def listPrefixEq : List Char → List Char → Bool
  | [], _ => true
  | _ :: _, [] => false
  | a :: as1, b :: bs => a == b && listPrefixEq as1 bs

/-- Substring occurrence test on character lists (Python `needle in hay`). -/
def listContains : List Char → List Char → Bool
  | hay, needle =>
      if listPrefixEq needle hay then true
      else
        match hay with
        | [] => false
        | _ :: rest => listContains rest needle

/-- ASCII lowercase map (Python str.lower(); the style keywords and
prompts handled here are ASCII). -/
def lowerChar (c : Char) : Char :=
  if 65 <= c.toNat && c.toNat <= 90 then Char.ofNat (c.toNat + 32) else c

/-- Lowercase a string characterwise. -/
def lowerStr (s : String) : String :=
  String.mk (s.toList.map lowerChar)

/-- Python d.get(k, default) as a partial operation: raises (none) when the
receiver is not a dict. -/
def pyGetD (v : PyVal) (k : String) (d : PyVal) : Option PyVal :=
  match v with
  | .obj kvs => some (alistGetD kvs k d)
  | _ => Option.none

/-- Python d.setdefault(k, v): raises (none) on a non-dict receiver;
otherwise inserts the binding at the end when the key is absent. -/
def pySetdefault (m : PyVal) (k : String) (v : PyVal) : Option PyVal :=
  match m with
  | .obj kvs => some (if alistHas kvs k then .obj kvs else .obj (kvs ++ [(k, v)]))
  | _ => Option.none

/-- Python membership `s in v` for a string s: key membership on dicts,
element membership on lists, substring on strings; raises (none) on other
receivers.  The substring test is exact for the nonempty needles the
service uses. -/
def pyIn (s : String) (v : PyVal) : Option Bool :=
  match v with
  | .obj kvs => some (alistHas kvs s)
  | .arr l => some (l.any (fun x => x == PyVal.str s))
  | .str t => some (listContains t.toList s.toList)
  | _ => Option.none

/-- Python `s not in v`. -/
def pyNotIn (s : String) (v : PyVal) : Option Bool :=
  (pyIn s v).map (fun b => !b)

/-- Substring test on strings (Python `needle in hay`). -/
def strContains (hay needle : String) : Bool :=
  listContains hay.toList needle.toList

/-- Short-circuiting Python `and` over possibly-raising boolean operands. -/
def pyAndThen (a : Option Bool) (b : Unit → Option Bool) : Option Bool :=
  match a with
  | Option.none => Option.none
  | some false => some false
  | some true => b ()

/-- Truncation toward zero, the behaviour of Python int() on a float (the
denominator of a rational is positive, so t-division truncates toward
zero). -/
def ratTrunc (q : ℚ) : ℤ :=
  Int.tdiv q.num (q.den : ℤ)

/-- Decimal digit run with the single underscores Python permits strictly
between digits; returns the accumulated value, the digit count and the
unconsumed remainder (an ill-placed underscore is left unconsumed, which
makes the whole literal fail in floatOfChars). -/
def parseDigits : List Char → ℕ → ℕ → ℕ × ℕ × List Char
  | c :: rest, acc, n =>
      if c.isDigit then parseDigits rest (acc * 10 + (c.toNat - 48)) (n + 1)
      else if c == Char.ofNat 95 then
        match rest with
        | d :: _ => if d.isDigit && n > 0 then parseDigits rest acc n
                    else (acc, n, c :: rest)
        | [] => (acc, n, c :: rest)
      else (acc, n, c :: rest)
  | [], acc, n => (acc, n, [])

/-- Finite-decimal core of Python float(string): optional sign, digits with
an optional fractional part, optional exponent.  Nonfinite literals
(inf/nan) are outside the rational model and fail here. -/
def floatOfChars (cs : List Char) : Option ℚ :=
  let (neg, cs1) :=
    match cs with
    | c :: rest =>
        if c == Char.ofNat 45 then (true, rest)
        else if c == Char.ofNat 43 then (false, rest)
        else (false, cs)
    | [] => (false, cs)
  let (ip, ipn, r1) := parseDigits cs1 0 0
  let (fp, fpn, r2) :=
    match r1 with
    | c :: rest => if c == Char.ofNat 46 then parseDigits rest 0 0 else (0, 0, r1)
    | [] => (0, 0, r1)
  if ipn + fpn == 0 then Option.none
  else
    let mant : ℚ := (ip : ℚ) + (fp : ℚ) / (10 : ℚ) ^ fpn
    let signed : ℚ := if neg then -mant else mant
    match r2 with
    | [] => some signed
    | c :: rest =>
        if c == Char.ofNat 101 || c == Char.ofNat 69 then
          let (eneg, rest1) :=
            match rest with
            | d :: rest' =>
                if d == Char.ofNat 45 then (true, rest')
                else if d == Char.ofNat 43 then (false, rest')
                else (false, rest)
            | [] => (false, rest)
          let (ev, en, r3) := parseDigits rest1 0 0
          if en == 0 || !r3.isEmpty then Option.none
          else some (if eneg then signed / (10 : ℚ) ^ ev else signed * (10 : ℚ) ^ ev)
        else Option.none

/-- Python float(string): whitespace is stripped, then a finite decimal
literal is required. -/
def floatOfStr (s : String) : Option ℚ :=
  floatOfChars (trimChars s.toList)

/-- Python float(x) coercion as used on coordinate values: numbers pass
through, booleans coerce to 0/1, strings parse as decimal literals; every
other value raises (none). -/
def pyFloat? : PyVal → Option ℚ
  | .num q => some q
  | .bool b => some (if b then 1 else 0)
  | .str s => floatOfStr s
  | _ => Option.none

/-- Value of a hexadecimal digit character. -/
def hexDigitVal (c : Char) : Option ℕ :=
  if c.isDigit then some (c.toNat - 48)
  else if 97 ≤ c.toNat && c.toNat ≤ 102 then some (c.toNat - 87)
  else if 65 ≤ c.toNat && c.toNat ≤ 70 then some (c.toNat - 55)
  else Option.none

/-- Nonempty run of hexadecimal digits. -/
def hexNatOfChars : List Char → Option ℕ
  | [] => Option.none
  | [c] => hexDigitVal c
  | c :: rest => do
      let d ← hexDigitVal c
      let r ← hexNatOfChars rest
      return d * 16 ^ rest.length + r

/-- Python int(s, 16) restricted to the at-most-two-character slices
hex_to_rgb feeds it: optional surrounding whitespace, optional sign, then
hexadecimal digits (underscores and the 0x prefix need at least three
characters and therefore never parse here). -/
def int16OfShort (s : String) : Option ℤ :=
  match trimChars s.toList with
  | [] => Option.none
  | c :: rest =>
      if c == Char.ofNat 43 then (hexNatOfChars rest).map Int.ofNat
      else if c == Char.ofNat 45 then (hexNatOfChars rest).map (fun n => -(n : ℤ))
      else (hexNatOfChars (c :: rest)).map Int.ofNat

/-- Codepoint slice s[i:j] of a Python string. -/
def strSlice (s : String) (i j : ℕ) : String :=
  String.mk ((s.toList.drop i).take (j - i))

/-- Python h.lstrip("#"): drop every leading hash. -/
def stripLeadingHashes (s : String) : String :=
  String.mk (s.toList.dropWhile (fun c => c == Char.ofNat 35))

/-- Translation of hex_to_rgb inside _rule_based_recognize: strip leading
hashes, parse the three two-character slices as base-16 integers, and fall
back to (0,0,0) on any failure, including a non-string input (the internal
try/except catches the AttributeError and the ValueError alike). -/
def hex_to_rgb (v : PyVal) : ℤ × ℤ × ℤ :=
  match v with
  | .str h0 =>
      let h := stripLeadingHashes h0
      match int16OfShort (strSlice h 0 2), int16OfShort (strSlice h 2 4),
            int16OfShort (strSlice h 4 6) with
      | some r, some g, some b => (r, g, b)
      | _, _, _ => (0, 0, 0)
  | _ => (0, 0, 0)

/-- Translation of color_close inside _rule_based_recognize: parse
`hexcolor or "#000000"` and test the squared Euclidean RGB distance to the
target against tol². -/
def color_close (hexcolor : PyVal) (target : ℤ × ℤ × ℤ) (tol : ℤ) : Bool :=
  let rgb := hex_to_rgb (PyVal.pyOr hexcolor (.str "#000000"))
  decide ((rgb.1 - target.1) ^ 2 + (rgb.2.1 - target.2.1) ^ 2 +
    (rgb.2.2 - target.2.2) ^ 2 ≤ tol ^ 2)

/-- Translation of _map_style_to_brush: ordered, case-insensitive keyword
table from a style prompt to (brushType, brushParams); first match wins,
default ("normal", empty params).  The source lowercases
`style_prompt or ""`; the prompt is a string here, so the None guard is a
no-op. -/
def _map_style_to_brush (style_prompt : String) : String × PyVal :=
  let s := lowerStr style_prompt
  if strContains s "watercolor" || strContains s "wash" then
    ("spray", .obj [("opacity", .num (6/10)), ("scatterAmount", .num (2/10))])
  else if strContains s "van gogh" || strContains s "oil" || strContains s "impasto" then
    ("mixed", .obj [("base", .str "wacky"), ("texture", .str "thick"),
      ("mixColors", .arr [.str "#FFCC33", .str "#FF9900", .str "#FFFF66"]),
      ("opacity", .num (9/10)), ("mixAmount", .num (6/10))])
  else if strContains s "neon" || strContains s "glow" then
    ("neon", .obj [("glow", .bool true), ("intensity", .num (9/10))])
  else if strContains s "chalk" || strContains s "pastel" then
    ("chalk", .obj [("grain", .num (6/10))])
  else if strContains s "spray" || strContains s "splatter" then
    ("spray", .obj [("scatterAmount", .num (5/10))])
  else if strContains s "drip" then
    ("drip", .obj [("dripRate", .num (4/10))])
  else if strContains s "scatter" then
    ("scatter", .obj [("scatterAmount", .num (4/10))])
  else if strContains s "mixed" then
    ("mixed", .obj [("mixColors", .arr [.str "#FFFFFF", .str "#000000"]),
      ("mixAmount", .num (5/10))])
  else if strContains s "stamp" || strContains s "sticker" || strContains s "collage" then
    ("normal", .obj [("preferStamp", .bool true)])
  else
    ("normal", .obj [])

/-- Bounding box returned by _bbox_from_path (the source returns the dict
with keys min_x/max_x/min_y/max_y or None; the four numeric fields are
carried as a structure). -/
structure Bbox where
  minX : ℚ
  maxX : ℚ
  minY : ℚ
  maxY : ℚ
deriving DecidableEq, Repr

/-- Coordinate collection loop of _bbox_from_path over a points list: for
each element p, float(p.get("x", 0)) is appended to xs and then
float(p.get("y", 0)) to ys, and any exception (non-dict element or
uncoercible coordinate) skips to the next element — so an element whose x
coerces but whose y does not contributes to xs only. -/
def collectCoords : List PyVal → List ℚ × List ℚ
  | [] => ([], [])
  | p :: rest =>
      let (xs, ys) := collectCoords rest
      match p with
      | .obj kvs =>
          match pyFloat? (alistGetD kvs "x" (.num 0)) with
          | Option.none => (xs, ys)
          | some qx =>
              match pyFloat? (alistGetD kvs "y" (.num 0)) with
              | Option.none => (qx :: xs, ys)
              | some qy => (qx :: xs, qy :: ys)
      | _ => (xs, ys)

/-- Start/end branch of _bbox_from_path: both must be dicts (the
isinstance guard) and all four coordinates must coerce; the two extend
calls fill xs first and ys second, an exception leaving the
partially-filled lists behind. -/
def startEndCoords (kvs : List (String × PyVal)) : List ℚ × List ℚ :=
  match alistGet kvs "start", alistGet kvs "end" with
  | some (.obj sk), some (.obj ek) =>
      match pyFloat? (alistGetD sk "x" (.num 0)),
            pyFloat? (alistGetD ek "x" (.num 0)) with
      | some sx, some ex =>
          match pyFloat? (alistGetD sk "y" (.num 0)),
                pyFloat? (alistGetD ek "y" (.num 0)) with
          | some sy, some ey => ([sx, ex], [sy, ey])
          | _, _ => ([sx, ex], [])
      | _, _ => ([], [])
  | _, _ => ([], [])

/-- Final step of _bbox_from_path: None when either coordinate list is
empty, else the min/max box. -/
def bboxFinish : List ℚ × List ℚ → Option Bbox
  | ([], _) => Option.none
  | (_ :: _, []) => Option.none
  | (x0 :: xrest, y0 :: yrest) =>
      some ⟨xrest.foldl min x0, xrest.foldl max x0,
            yrest.foldl min y0, yrest.foldl max y0⟩

/-- Translation of _bbox_from_path: None (here Option.none) for a non-dict
pathData; when a list "points" entry exists the coordinates come from the
collection loop (even when the list is empty, start/end are then ignored);
otherwise from the start/end branch. -/
def _bbox_from_path (pathData : PyVal) : Option Bbox :=
  match pathData with
  | .obj kvs =>
      bboxFinish
        (match alistGet kvs "points" with
         | some (.arr pts) => collectCoords pts
         | _ => startEndCoords kvs)
  | _ => Option.none

/-- ASCII apostrophe character, written by codepoint. -/
def apos : String := String.singleton (Char.ofNat 39)

/-- Result dict of recognition rule 1 (single circle). -/
def circleResult : PyVal :=
  .obj [("label", .str "circle"), ("confidence", .num (95/100)),
    ("explanation", .str "Single circular shape primitive within selection.")]

/-- Result dict of recognition rule 2 (text primitive). -/
def textResult (txt : String) : PyVal :=
  .obj [("label", .str ("text: " ++ apos ++ txt ++ apos)), ("confidence", .num (98/100)),
    ("explanation", .str "A text primitive with an explicit string was found.")]

/-- Result dict of recognition rule 3 (car). -/
def carResult : PyVal :=
  .obj [("label", .str "car"), ("confidence", .num (9/10)),
    ("explanation", .str "Rectangular/polygonal body plus multiple circular wheel primitives.")]

/-- Result dict of recognition rule 4 (house). -/
def houseResult : PyVal :=
  .obj [("label", .str "house"), ("confidence", .num (9/10)),
    ("explanation", .str "Rectangular base plus triangular roof polygon detected.")]

/-- Result dict of recognition rule 5 (tree). -/
def treeResult : PyVal :=
  .obj [("label", .str "tree"), ("confidence", .num (88/100)),
    ("explanation", .str "Brown trunk-like stroke plus clustered green freehand strokes resembling foliage.")]

/-- One step of count_type's generator inside _rule_based_recognize:
isinstance(o.get("pathData"), dict) and o.get("pathData").get("type") == t.
A non-dict object makes o.get raise (none, caught by the enclosing
try/except of the source). -/
def pdTypeTest (t : String) (o : PyVal) : Option Bool :=
  match o with
  | .obj kvs =>
      match alistGet kvs "pathData" with
      | some (.obj pd) => some (alistGet pd "type" == some (PyVal.str t))
      | _ => some false
  | _ => Option.none

/-- Translation of count_type inside _rule_based_recognize. -/
def count_type (t : String) : List PyVal → Option ℕ
  | [] => some 0
  | o :: rest =>
      match pdTypeTest t o with
      | Option.none => Option.none
      | some b => (count_type t rest).map (fun n => (if b then 1 else 0) + n)

/-- Translation of is_text inside _rule_based_recognize: the pathData
defaults to an empty dict when absent; a present non-dict pathData makes
pd.get raise (none). -/
def isTextTest (o : PyVal) : Option Bool :=
  match o with
  | .obj kvs =>
      match alistGet kvs "pathData" with
      | Option.none => some false
      | some (.obj pd) =>
          some (alistGet pd "type" == some (PyVal.str "text") &&
            (match alistGet pd "text" with
             | some (.str _) => true
             | _ => false))
      | some _ => Option.none
  | _ => Option.none

/-- Text-rule loop of _rule_based_recognize: first object passing is_text
yields its pathData text (a string by the test); the outer some Option.none
means the loop finished without a match, the outer none a raised
exception. -/
def findText : List PyVal → Option (Option String)
  | [] => some Option.none
  | o :: rest =>
      match isTextTest o with
      | Option.none => Option.none
      | some true =>
          match o with
          | .obj kvs =>
              match alistGet kvs "pathData" with
              | some (.obj pd) =>
                  match alistGet pd "text" with
                  | some (.str t) => some (some t)
                  | _ => some (some "")
              | _ => some (some "")
          | _ => some (some "")
      | some false => findText rest

/-- Translation of is_triangle inside _rule_based_recognize. -/
def isTriangleTest (o : PyVal) : Option Bool :=
  match o with
  | .obj kvs =>
      match alistGet kvs "pathData" with
      | Option.none => some false
      | some (.obj pd) =>
          let pts : List PyVal :=
            match alistGet pd "points" with
            | some (.arr l) => l
            | _ => []
          some (alistGet pd "type" == some (PyVal.str "polygon") && pts.length == 3)
      | some _ => Option.none
  | _ => Option.none

/-- Triangle count of _rule_based_recognize. -/
def triCount : List PyVal → Option ℕ
  | [] => some 0
  | o :: rest =>
      match isTriangleTest o with
      | Option.none => Option.none
      | some b => (triCount rest).map (fun n => (if b then 1 else 0) + n)

/-- Target brown of the tree rule. -/
def brown_rgb : ℤ × ℤ × ℤ := (139, 69, 19)

/-- Target green of the tree rule. -/
def green_rgb : ℤ × ℤ × ℤ := (34, 139, 34)

/-- Filter of the trunk/foliage generators: a freehand-tool pathData whose
object color is within RGB distance 120 of the target (the source passes
tol=120 for the brown test and the green test alike). -/
def strokeColorTest (target : ℤ × ℤ × ℤ) (o : PyVal) : Option Bool :=
  match o with
  | .obj kvs =>
      match alistGet kvs "pathData" with
      | Option.none => some false
      | some (.obj pd) =>
          some (if alistGet pd "tool" == some (PyVal.str "freehand")
                then color_close (alistGetD kvs "color" (.str "#000000")) target 120
                else false)
      | some _ => Option.none
  | _ => Option.none

/-- Python any over a filtering generator expression: the elements passing
the filter are tested for truthiness, lazily and in order. -/
def anyTruthy (f : PyVal → Option Bool) : List PyVal → Option Bool
  | [] => some false
  | o :: rest =>
      match f o with
      | Option.none => Option.none
      | some true => if o.truthy then some true else anyTruthy f rest
      | some false => anyTruthy f rest

/-- Body of _rule_based_recognize inside its try block: the outer Option is
exception propagation, the inner Option the no-match fall-through. -/
def ruleCore (canvas_objects : List PyVal) : Option (Option PyVal) :=
  match count_type "circle" canvas_objects with
  | Option.none => Option.none
  | some circle_count =>
      if circle_count == 1 && canvas_objects.length == 1 then
        some (some circleResult)
      else
        match findText canvas_objects with
        | Option.none => Option.none
        | some (some txt) => some (some (textResult txt))
        | some Option.none =>
            match count_type "rectangle" canvas_objects,
                  count_type "polygon" canvas_objects with
            | some rect_count, some poly_count =>
                if decide (1 ≤ rect_count + poly_count) && decide (2 ≤ circle_count) then
                  some (some carResult)
                else
                  match triCount canvas_objects with
                  | Option.none => Option.none
                  | some tri_count =>
                      if decide (1 ≤ rect_count) && decide (1 ≤ tri_count) then
                        some (some houseResult)
                      else
                        match anyTruthy (strokeColorTest brown_rgb) canvas_objects,
                              anyTruthy (strokeColorTest green_rgb) canvas_objects with
                        | some trunk, some foliage =>
                            if trunk && foliage then some (some treeResult)
                            else some Option.none
                        | _, _ => Option.none
            | _, _ => Option.none

/-- Translation of _rule_based_recognize: the rule chain under a blanket
try/except whose handler returns None, so a raised exception and a
no-match alike yield none.  The box argument is never read by the body. -/
def _rule_based_recognize (canvas_objects : List PyVal) (_box : PyVal) : Option PyVal :=
  match ruleCore canvas_objects with
  | Option.none => Option.none
  | some r => r

/-- Python multiplication value * mult for a float mult, as applied to the
lineWidth field: numbers multiply, booleans coerce to 0/1; any other value
raises (none). -/
def pyMulCoerce : PyVal → ℚ → Option ℚ
  | .num q, m => some (q * m)
  | .bool b, m => some ((if b then 1 else 0) * m)
  | _, _ => Option.none

/-- Translation of _create_impasto_overlays: two synthetic freehand strokes
for a source object.  The overlay color is the first entry of the object's
metadata brushParams mixColors when that is a truthy list, else the
object's color (default black); points are fractional offsets of the
bounding box translated by ((idx mod 3) - 1) * 4 in both coordinates; the
line width is max(2, int(lineWidth * mult)) with the product truncated
toward zero by int(); metadata carries the default params with their
opacity (default 0.9) re-applied. -/
def _create_impasto_overlays (o : PyVal) (bb : Bbox) (default_params : PyVal)
    (idx : ℕ) : Option (List PyVal) :=
  match o with
  | .obj kvs =>
      match pyGetD (alistGetD kvs "metadata" (.obj [])) "brushParams" (.obj []) with
      | Option.none => Option.none
      | some bp =>
          match pyGetD bp "mixColors" (.arr []) with
          | Option.none => Option.none
          | some mcol =>
              let overlay_color :=
                match mcol with
                | .arr (c :: _) => c
                | _ => alistGetD kvs "color" (.str "#000000")
              let w := bb.maxX - bb.minX
              let h := bb.maxY - bb.minY
              let cx := (bb.minX + bb.maxX) / 2
              let cy := (bb.minY + bb.maxY) / 2
              let offs : ℚ := (((idx : ℤ) % 3 - 1) * 4 : ℤ)
              let lw := alistGetD kvs "lineWidth" (.num 2)
              let mk : List (ℚ × ℚ) → ℚ → Option PyVal := fun rel mult =>
                let pts := rel.map (fun rp =>
                  PyVal.obj [("x", .num (cx + rp.1 * w + offs)),
                             ("y", .num (cy + rp.2 * h + offs))])
                match pyMulCoerce lw mult with
                | Option.none => Option.none
                | some lwq =>
                    match pyGetD default_params "opacity" (.num (9/10)) with
                    | Option.none => Option.none
                    | some op =>
                        match PyVal.pyOr default_params (.obj []) with
                        | .obj dl =>
                            some (.obj [
                              ("color", overlay_color),
                              ("lineWidth", .num ((max 2 (ratTrunc lwq) : ℤ) : ℚ)),
                              ("pathData", .obj [("tool", .str "freehand"),
                                ("type", .str "stroke"), ("points", .arr pts)]),
                              ("metadata", .obj [
                                ("drawingType", .str "stroke"),
                                ("brushType",
                                  match default_params with
                                  | .obj l => alistGetD l "base" (.str "wacky")
                                  | _ => .str "wacky"),
                                ("brushParams", .obj (alistSet dl "opacity" op))])])
                        | _ => Option.none
              match mk [(-3/10, -2/10), (-1/10, -25/100), (1/10, -15/100)] 1 with
              | Option.none => Option.none
              | some s1 =>
                  match mk [(-4/10, 1/10), (0, 15/100), (35/100, 5/100)] (13/10) with
                  | Option.none => Option.none
                  | some s2 => some [s1, s2]
  | _ => Option.none

/-- Image-likeness test of the per-object step: obj.get("drawingType") ==
"image" or a truthy obj.get("imageDataUrl"). -/
def imageLikeObj (kvs : List (String × PyVal)) : Bool :=
  (alistGetD kvs "drawingType" PyVal.none == PyVal.str "image") ||
  (alistGetD kvs "imageDataUrl" PyVal.none).truthy

/-- Per-object step of _postprocess_style_objects: a non-dict passes
through; an image-like dict (drawingType "image" or truthy imageDataUrl)
gets default drawingType/stampData metadata, any other dict gets default
drawingType/brushType/brushParams metadata, existing entries winning via
setdefault; a truthy non-dict metadata makes setdefault raise (none).  The
returned flag is the object's contribution to had_explicit_metadata: it
had a metadata key and the final metadata has a truthy brushType. -/
def processStyleObj (default_brush : String) (default_params : PyVal)
    (o : PyVal) : Option (PyVal × Bool) :=
  match o with
  | .obj kvs =>
      let had_meta := alistHas kvs "metadata"
      let meta0 := alistGetD kvs "metadata" (.obj [])
      let meta := if meta0.truthy then meta0 else .obj []
      if imageLikeObj kvs then
        match pySetdefault meta "drawingType" (.str "image") with
        | Option.none => Option.none
        | some m1 =>
            let stamp := PyVal.obj [
              ("imageDataUrl", PyVal.pyOr (alistGetD kvs "imageDataUrl" .none)
                (alistGetD kvs "image" .none)),
              ("x", alistGetD kvs "x" (.num 0)),
              ("y", alistGetD kvs "y" (.num 0)),
              ("width", alistGetD kvs "width" .none),
              ("height", alistGetD kvs "height" .none)]
            match pySetdefault m1 "stampData" stamp with
            | Option.none => Option.none
            | some m2 =>
                some (.obj (alistSet kvs "metadata" m2),
                  had_meta && (match m2 with
                    | .obj ml => (alistGetD ml "brushType" .none).truthy
                    | _ => false))
      else
        match pySetdefault meta "drawingType" (.str "stroke") with
        | Option.none => Option.none
        | some m1 =>
            match pyGetD m1 "brushType" (.str default_brush) with
            | Option.none => Option.none
            | some btD =>
                match pySetdefault m1 "brushType" btD with
                | Option.none => Option.none
                | some m2 =>
                    match pyGetD m2 "brushParams" default_params with
                    | Option.none => Option.none
                    | some bpD =>
                        match pySetdefault m2 "brushParams" bpD with
                        | Option.none => Option.none
                        | some m3 =>
                            some (.obj (alistSet kvs "metadata" m3),
                              had_meta && (match m3 with
                                | .obj ml => (alistGetD ml "brushType" .none).truthy
                                | _ => false))
  | v => some (v, false)

/-- Main loop of _postprocess_style_objects: process every object in
order, accumulating the had_explicit_metadata flag; the first raising
object aborts the whole call (none). -/
def processList (default_brush : String) (default_params : PyVal) :
    List PyVal → Option (List PyVal × Bool)
  | [] => some ([], false)
  | o :: rest =>
      match processStyleObj default_brush default_params o with
      | Option.none => Option.none
      | some (o', e) =>
          match processList default_brush default_params rest with
          | Option.none => Option.none
          | some (l, erest) => some (o' :: l, e || erest)

/-- Overlay loop of _postprocess_style_objects over the processed list
with its enumerate index: skip non-dicts, image-typed metadata, and
objects without a usable bounding box; collect two impasto overlays for
every other object. -/
def overlayList (default_params : PyVal) : ℕ → List PyVal → Option (List PyVal)
  | _, [] => some []
  | idx, o :: rest =>
      match o with
      | .obj kvs =>
          match pyGetD (alistGetD kvs "metadata" (.obj [])) "drawingType" .none with
          | Option.none => Option.none
          | some dt =>
              if dt == PyVal.str "image" then overlayList default_params (idx + 1) rest
              else
                match _bbox_from_path (alistGetD kvs "pathData" (.obj [])) with
                | Option.none => overlayList default_params (idx + 1) rest
                | some bb =>
                    match _create_impasto_overlays (.obj kvs) bb default_params idx with
                    | Option.none => Option.none
                    | some ovs =>
                        match overlayList default_params (idx + 1) rest with
                        | Option.none => Option.none
                        | some r => some (ovs ++ r)
      | _ => overlayList default_params (idx + 1) rest

/-- Translation of _postprocess_style_objects: a non-list passes through
unmodified; otherwise every object is enriched with default metadata, and
when the lowercase style prompt is in the van gogh/oil/impasto class and
no object contributed to had_explicit_metadata, the impasto overlays are
appended after the processed originals.  The function itself has no
exception handler: a raising step yields none, which the caller
propagates. -/
def _postprocess_style_objects (objects : PyVal) (style_prompt : String) :
    Option PyVal :=
  match objects with
  | .arr objs =>
      let dbp := _map_style_to_brush style_prompt
      match processList dbp.1 dbp.2 objs with
      | Option.none => Option.none
      | some (processed, had_explicit_metadata) =>
          let s := lowerStr style_prompt
          if (strContains s "van gogh" || strContains s "oil" ||
              strContains s "impasto") && !had_explicit_metadata then
            match overlayList dbp.2 0 processed with
            | Option.none => Option.none
            | some overlays => some (.arr (processed ++ overlays))
          else some (.arr processed)
  | v => some v

/-- Outcome of one backend network call: .error msg is a raised exception
with detail text msg (transport failure, JSON parse failure, missing
client library); .ok v is the JSON-decoded reply text. -/
abbrev BackendReply := Except String PyVal

/-- Error payload the service wrappers return from their except blocks. -/
def errDict (kind detail : String) : PyVal :=
  .obj [("error", .str kind), ("detail", .str detail)]

/-- Translation of openai_prompt_to_json restricted to its observable
result: the decoded reply, or the error payload from the except block.
The missing-API-key early return yields an error payload of a different
kind and is subsumed by the .error case. -/
def openai_prompt_to_json : BackendReply → PyVal
  | .error d => errDict "openai_failed" d
  | .ok v => v

/-- Translation of ollama_prompt_to_json. -/
def ollama_prompt_to_json : BackendReply → PyVal
  | .error d => errDict "ollama_failed" d
  | .ok v => v

/-- Translation of prompt_to_drawings (synthesize mode): return the
primary output unless it carries an "error" key, else return the fallback
output unchecked.  The Bool of the result records whether the fallback
backend was invoked; none is an uncaught exception (a primary reply on
which the membership test itself raises). -/
def prompt_to_drawings (p fb : BackendReply) : Option (PyVal × Bool) :=
  let m := openai_prompt_to_json p
  match pyNotIn "error" m with
  | Option.none => Option.none
  | some true => some (m, false)
  | some false => some (ollama_prompt_to_json fb, true)

/-- Translation of openai_complete_shape restricted to its observable
result. -/
def openai_complete_shape : BackendReply → PyVal
  | .error d => errDict "openai_completion_failed" d
  | .ok v => v

/-- Translation of ollama_complete_shape. -/
def ollama_complete_shape : BackendReply → PyVal
  | .error d => errDict "ollama_completion_failed" d
  | .ok v => v

/-- Translation of complete_shape_from_canvas (complete mode): same
error-key acceptance as prompt_to_drawings; no structural check of the
object/complete/confidence fields is performed anywhere on this path. -/
def complete_shape_from_canvas (p fb : BackendReply) : Option (PyVal × Bool) :=
  let m := openai_complete_shape p
  match pyNotIn "error" m with
  | Option.none => Option.none
  | some true => some (m, false)
  | some false => some (ollama_complete_shape fb, true)

/-- Translation of openai_beautify_canvas restricted to its observable
result: no validation beyond JSON decoding. -/
def openai_beautify_canvas : BackendReply → PyVal
  | .error d => errDict "openai_beautify_failed" d
  | .ok v => v

/-- Translation of ollama_beautify_canvas: unlike the openai wrapper it
validates that the decoded reply is a dict with a list "objects" entry,
degrading to an error payload otherwise. -/
def ollama_beautify_canvas : BackendReply → PyVal
  | .error d => errDict "ollama_beautify_failed" d
  | .ok v =>
      match v with
      | .obj kvs =>
          if !alistHas kvs "objects" then
            errDict "ollama_beautify_invalid_output"
              ("Missing " ++ apos ++ "objects" ++ apos ++ " field in model response.")
          else
            match alistGet kvs "objects" with
            | some (.arr _) => .obj kvs
            | _ => errDict "ollama_beautify_invalid_output"
                (apos ++ "objects" ++ apos ++ " is not a list in model response.")
      | _ => errDict "ollama_beautify_invalid_output"
          ("Missing " ++ apos ++ "objects" ++ apos ++ " field in model response.")

/-- Acceptance check of beautify_canvas_state on a backend output:
`"error" not in m and "objects" in m`, short-circuiting; none when the
membership test raises (non-dict, non-list, non-string output). -/
def beautifyAccept (m : PyVal) : Option Bool :=
  pyAndThen (pyNotIn "error" m) (fun _ => pyIn "objects" m)

/-- Translation of beautify_canvas_state: primary, then fallback, then
rollback to the canvas state's own objects (default empty list). -/
def beautify_canvas_state (p fb : BackendReply) (canvas_state : PyVal) :
    Option (PyVal × Bool) :=
  let m := openai_beautify_canvas p
  match beautifyAccept m with
  | Option.none => Option.none
  | some true => some (m, false)
  | some false =>
      let f := ollama_beautify_canvas fb
      match beautifyAccept f with
      | Option.none => Option.none
      | some true => some (f, true)
      | some false =>
          match pyGetD canvas_state "objects" (.arr []) with
          | Option.none => Option.none
          | some v => some (.obj [("objects", v)], true)

/-- Translation of openai_style_transfer restricted to its observable
result. -/
def openai_style_transfer : BackendReply → PyVal
  | .error d => errDict "openai_style_failed" d
  | .ok v => v

/-- Translation of ollama_style_transfer. -/
def ollama_style_transfer : BackendReply → PyVal
  | .error d => errDict "ollama_style_failed" d
  | .ok v => v

/-- Acceptance check of style_transfer_canvas on a backend output:
isinstance(dict) and no "error" key and an "objects" key; total because
the isinstance guard short-circuits the membership tests. -/
def styleAccept (m : PyVal) : Bool :=
  match m with
  | .obj kvs => !alistHas kvs "error" && alistHas kvs "objects"
  | _ => false

/-- Translation of style_transfer_canvas: on an accepted output the
"objects" entry is replaced by its post-processing before returning; an
exception raised inside _postprocess_style_objects propagates (none);
when both outputs are rejected, roll back to the canvas state's own
objects. -/
def style_transfer_canvas (p fb : BackendReply) (canvas_state : PyVal)
    (style_prompt : String) : Option (PyVal × Bool) :=
  let m := openai_style_transfer p
  match m with
  | .obj kvs =>
      if !alistHas kvs "error" && alistHas kvs "objects" then
        match _postprocess_style_objects (alistGetD kvs "objects" (.arr [])) style_prompt with
        | Option.none => Option.none
        | some po => some (.obj (alistSet kvs "objects" po), false)
      else styleFallback fb canvas_state style_prompt
  | _ => styleFallback fb canvas_state style_prompt
where
  /-- Fallback half of style_transfer_canvas: the ollama attempt, then the
  rollback. -/
  styleFallback (fb : BackendReply) (canvas_state : PyVal)
      (style_prompt : String) : Option (PyVal × Bool) :=
    let f := ollama_style_transfer fb
    match f with
    | .obj kvs =>
        if !alistHas kvs "error" && alistHas kvs "objects" then
          match _postprocess_style_objects (alistGetD kvs "objects" (.arr [])) style_prompt with
          | Option.none => Option.none
          | some po => some (.obj (alistSet kvs "objects" po), true)
        else
          match pyGetD canvas_state "objects" (.arr []) with
          | Option.none => Option.none
          | some v => some (.obj [("objects", v)], true)
    | _ =>
        match pyGetD canvas_state "objects" (.arr []) with
        | Option.none => Option.none
        | some v => some (.obj [("objects", v)], true)

/-- Translation of openai_recognize_objects restricted to its observable
result. -/
def openai_recognize_objects : BackendReply → PyVal
  | .error d => errDict "openai_recognition_failed" d
  | .ok v => v

/-- Translation of ollama_recognize_objects. -/
def ollama_recognize_objects : BackendReply → PyVal
  | .error d => errDict "ollama_recognition_failed" d
  | .ok v => v

/-- Acceptance check of recognize_objects_in_box on the primary output:
isinstance(dict) and no "error" key. -/
def recAccept (m : PyVal) : Bool :=
  match m with
  | .obj kvs => !alistHas kvs "error"
  | _ => false

/-- Translation of recognize_objects_in_box: the rule-based fast path
(whose own try/except means it never raises and returns a dict or None),
then the primary backend under the error-key acceptance, then the
fallback backend unchecked.  The Bool records whether the fallback was
invoked; on a fast-path hit neither backend is invoked. -/
def recognize_objects_in_box (canvas_objects : List PyVal) (box : PyVal)
    (p fb : BackendReply) : Option (PyVal × Bool) :=
  match _rule_based_recognize canvas_objects box with
  | some d => some (d, false)
  | Option.none =>
      let m := openai_recognize_objects p
      if recAccept m then some (m, false)
      else some (ollama_recognize_objects fb, true)

/-- Role-tagged chat message of the backend framing. -/
structure ChatMessage where
  role : String
  content : String
deriving DecidableEq, Repr

/-- Constant prompt texts of the synthesize framing (system prompt and
three worked examples); opaque configuration per the source, carried
abstractly. -/
structure SynthPrompts where
  system : String
  fsUser1 : String
  fsAssistant1 : String
  fsUser2 : String
  fsAssistant2 : String
  fsUser3 : String
  fsAssistant3 : String

/-- Translation of _get_text_to_drawings_initial_message; canvas_json
abstracts json.dumps(canvasState). -/
def _get_text_to_drawings_initial_message (cfg : SynthPrompts)
    (prompt canvas_json : String) : List ChatMessage :=
  [⟨"system", cfg.system⟩, ⟨"user", cfg.fsUser1⟩, ⟨"assistant", cfg.fsAssistant1⟩,
   ⟨"user", cfg.fsUser2⟩, ⟨"assistant", cfg.fsAssistant2⟩,
   ⟨"user", cfg.fsUser3⟩, ⟨"assistant", cfg.fsAssistant3⟩,
   ⟨"user", "CanvasState:\n" ++ canvas_json ++
     "\nUserPrompt:\nDescribe all drawing commands (shapes and freehand strokes) " ++
     "needed to draw this scene: " ++ prompt⟩]

/-- Messages openai_prompt_to_json sends. -/
def openaiSynthMessages (cfg : SynthPrompts) (prompt canvas_json : String) :
    List ChatMessage :=
  _get_text_to_drawings_initial_message cfg prompt canvas_json

/-- Messages ollama_prompt_to_json sends. -/
def ollamaSynthMessages (cfg : SynthPrompts) (prompt canvas_json : String) :
    List ChatMessage :=
  _get_text_to_drawings_initial_message cfg prompt canvas_json

/-- Constant prompt texts of the complete framing. -/
structure CompletePrompts where
  system : String
  fsUser1 : String
  fsAssistant1 : String
  fsUser2 : String
  fsAssistant2 : String
  fsUser3 : String
  fsAssistant3 : String

/-- Translation of _get_shape_completion_initial_message. -/
def _get_shape_completion_initial_message (cfg : CompletePrompts)
    (canvas_json : String) : List ChatMessage :=
  [⟨"system", cfg.system⟩, ⟨"user", cfg.fsUser1⟩, ⟨"assistant", cfg.fsAssistant1⟩,
   ⟨"user", cfg.fsUser2⟩, ⟨"assistant", cfg.fsAssistant2⟩,
   ⟨"user", cfg.fsUser3⟩, ⟨"assistant", cfg.fsAssistant3⟩,
   ⟨"user", "CanvasState:\n" ++ canvas_json⟩]

/-- Messages openai_complete_shape sends. -/
def openaiCompleteMessages (cfg : CompletePrompts) (canvas_json : String) :
    List ChatMessage :=
  _get_shape_completion_initial_message cfg canvas_json

/-- Messages ollama_complete_shape sends. -/
def ollamaCompleteMessages (cfg : CompletePrompts) (canvas_json : String) :
    List ChatMessage :=
  _get_shape_completion_initial_message cfg canvas_json

/-- Constant prompt texts of the beautify framing. -/
structure BeautifyPrompts where
  system : String
  fsUser1 : String
  fsAssistant1 : String
  fsUser2 : String
  fsAssistant2 : String

/-- Translation of _get_beautify_canvas_initial_message. -/
def _get_beautify_canvas_initial_message (cfg : BeautifyPrompts)
    (canvas_json : String) : List ChatMessage :=
  [⟨"system", cfg.system⟩, ⟨"user", cfg.fsUser1⟩, ⟨"assistant", cfg.fsAssistant1⟩,
   ⟨"user", cfg.fsUser2⟩, ⟨"assistant", cfg.fsAssistant2⟩,
   ⟨"user", "CanvasState:\n" ++ canvas_json⟩]

/-- Messages openai_beautify_canvas sends. -/
def openaiBeautifyMessages (cfg : BeautifyPrompts) (canvas_json : String) :
    List ChatMessage :=
  _get_beautify_canvas_initial_message cfg canvas_json

/-- Messages ollama_beautify_canvas sends. -/
def ollamaBeautifyMessages (cfg : BeautifyPrompts) (canvas_json : String) :
    List ChatMessage :=
  _get_beautify_canvas_initial_message cfg canvas_json

/-- Constant prompt texts of the style framing. -/
structure StylePrompts where
  system : String
  fsUser1 : String
  fsAssistant1 : String

/-- Translation of _get_style_transfer_message. -/
def _get_style_transfer_message (cfg : StylePrompts)
    (canvas_json style_prompt : String) : List ChatMessage :=
  [⟨"system", cfg.system⟩, ⟨"user", cfg.fsUser1⟩, ⟨"assistant", cfg.fsAssistant1⟩,
   ⟨"user", "CanvasState:\n" ++ canvas_json ++ "\nStylePrompt:\n" ++ style_prompt⟩]

/-- Messages openai_style_transfer sends. -/
def openaiStyleMessages (cfg : StylePrompts) (canvas_json style_prompt : String) :
    List ChatMessage :=
  _get_style_transfer_message cfg canvas_json style_prompt

/-- Messages ollama_style_transfer sends. -/
def ollamaStyleMessages (cfg : StylePrompts) (canvas_json style_prompt : String) :
    List ChatMessage :=
  _get_style_transfer_message cfg canvas_json style_prompt

/-- Constant prompt text of the recognition framing. -/
structure RecoPrompts where
  system : String

/-- Translation of _get_recognition_message; box_json and objs_json
abstract the two json.dumps serializations. -/
def _get_recognition_message (cfg : RecoPrompts) (box_json objs_json : String) :
    List ChatMessage :=
  [⟨"system", cfg.system⟩,
   ⟨"user", "SelectionBox:\n" ++ box_json ++ "\nCanvasObjects:\n" ++ objs_json ++
     "\n\nPlease identify the primary object or scene contained within the " ++
     "selection box and return JSON as specified."⟩]

/-- Messages openai_recognize_objects sends. -/
def openaiRecoMessages (cfg : RecoPrompts) (box_json objs_json : String) :
    List ChatMessage :=
  _get_recognition_message cfg box_json objs_json

/-- Messages ollama_recognize_objects sends. -/
def ollamaRecoMessages (cfg : RecoPrompts) (box_json objs_json : String) :
    List ChatMessage :=
  _get_recognition_message cfg box_json objs_json

/-- Element contribution test of the bounding-box loop: a dict element both
of whose coordinates (defaulting to 0) coerce to floats. -/
def coordContrib (p : PyVal) : Bool :=
  match p with
  | .obj pk => (pyFloat? (alistGetD pk "x" (.num 0))).isSome &&
      (pyFloat? (alistGetD pk "y" (.num 0))).isSome
  | _ => false

/-- Usability test of the start/end branch of _bbox_from_path: both are
dicts and all four coordinates (defaulting to 0) coerce to floats. -/
def startEndUsable (kvs : List (String × PyVal)) : Bool :=
  match alistGet kvs "start", alistGet kvs "end" with
  | some (.obj sk), some (.obj ek) =>
      (pyFloat? (alistGetD sk "x" (.num 0))).isSome &&
      (pyFloat? (alistGetD ek "x" (.num 0))).isSome &&
      (pyFloat? (alistGetD sk "y" (.num 0))).isSome &&
      (pyFloat? (alistGetD ek "y" (.num 0))).isSome
  | _, _ => false

/-- Definedness predicate of _bbox_from_path as characterized below: the
pathData is a dict and either its list "points" entry (which takes
precedence even when empty) has a contributing element, or it has no list
"points" entry and the start/end pair is usable. -/
def bboxDefined (pd : PyVal) : Bool :=
  match pd with
  | .obj kvs =>
      match alistGet kvs "points" with
      | some (.arr pts) => pts.any coordContrib
      | _ => startEndUsable kvs
  | _ => false

theorem collectCoords_snd_isEmpty (pts : List PyVal) :
    (collectCoords pts).2.isEmpty = !pts.any coordContrib := by
  induction pts with
  | nil => rfl
  | cons p rest ih =>
      simp only [collectCoords, List.any_cons]
      cases hp : p with
      | obj pk =>
          simp only [coordContrib]
          cases hx : pyFloat? (alistGetD pk "x" (.num 0)) with
          | none => simpa [hx] using ih
          | some qx =>
              cases hy : pyFloat? (alistGetD pk "y" (.num 0)) with
              | none => simpa [hx, hy] using ih
              | some qy => simp [hx, hy]
      | none => simpa [coordContrib] using ih
      | bool b => simpa [coordContrib] using ih
      | num q => simpa [coordContrib] using ih
      | str s => simpa [coordContrib] using ih
      | arr l => simpa [coordContrib] using ih

theorem collectCoords_fst_of_snd (pts : List PyVal)
    (h : (collectCoords pts).2 ≠ []) : (collectCoords pts).1 ≠ [] := by
  induction pts with
  | nil => exact absurd rfl h
  | cons p rest ih =>
      simp only [collectCoords] at h ⊢
      cases hp : p with
      | obj pk =>
          cases hx : pyFloat? (alistGetD pk "x" (.num 0)) with
          | none => simp only [hp, hx] at h ⊢; exact ih h
          | some qx =>
              cases hy : pyFloat? (alistGetD pk "y" (.num 0)) with
              | none => simp [hp, hx, hy]
              | some qy => simp [hp, hx, hy]
      | none => simp only [hp] at h ⊢; exact ih h
      | bool b => simp only [hp] at h ⊢; exact ih h
      | num q => simp only [hp] at h ⊢; exact ih h
      | str s => simp only [hp] at h ⊢; exact ih h
      | arr l => simp only [hp] at h ⊢; exact ih h

theorem bboxFinish_isSome (xs ys : List ℚ) :
    (bboxFinish (xs, ys)).isSome = (!xs.isEmpty && !ys.isEmpty) := by
  cases xs <;> cases ys <;> simp [bboxFinish]

theorem bboxFinish_startEnd (kvs : List (String × PyVal)) :
    (bboxFinish (startEndCoords kvs)).isSome = startEndUsable kvs := by
  simp only [startEndCoords, startEndUsable]
  cases hs : alistGet kvs "start" <;> cases he : alistGet kvs "end" <;>
    try simp [bboxFinish]
  case some.some vs ve =>
    cases vs <;> cases ve <;> try simp [bboxFinish]
    case obj.obj sk ek =>
      cases h1 : pyFloat? (alistGetD sk "x" (.num 0)) <;>
        cases h2 : pyFloat? (alistGetD ek "x" (.num 0)) <;>
        cases h3 : pyFloat? (alistGetD sk "y" (.num 0)) <;>
        cases h4 : pyFloat? (alistGetD ek "y" (.num 0)) <;>
        simp [bboxFinish]

theorem bboxFinish_collect (pts : List PyVal) :
    (bboxFinish (collectCoords pts)).isSome = pts.any coordContrib := by
  rcases hcc : collectCoords pts with ⟨xs, ys⟩
  rw [bboxFinish_isSome]
  have hlem := collectCoords_snd_isEmpty pts
  rw [hcc] at hlem
  cases hys : ys with
  | nil =>
      rw [hys] at hlem
      simp only [List.isEmpty_nil] at hlem
      have hany : pts.any coordContrib = false := by
        cases h : pts.any coordContrib
        · rfl
        · rw [h] at hlem; simp at hlem
      simp [hys, hany]
  | cons y0 yr =>
      have hxs := collectCoords_fst_of_snd pts (by rw [hcc, hys]; simp)
      rw [hcc] at hxs
      rw [hys] at hlem
      simp only [List.isEmpty_cons] at hlem
      have hany : pts.any coordContrib = true := by
        cases h : pts.any coordContrib
        · rw [h] at hlem; simp at hlem
        · rfl
      cases xs with
      | nil => exact absurd rfl hxs
      | cons x0 xr => simp [hany]

/-- C5 counterexample: a pathData that has both a start and an end point
(each a dict of numeric coordinates) but also an empty "points" list; the
claim requires a bounding box whenever both start and end are present, yet
the extractor returns none because the points entry takes precedence. -/
theorem claim_C5_counterexample :
    alistGet [("points", PyVal.arr []),
      ("start", PyVal.obj [("x", PyVal.num 1), ("y", PyVal.num 2)]),
      ("end", PyVal.obj [("x", PyVal.num 3), ("y", PyVal.num 4)])] "start" =
        some (PyVal.obj [("x", PyVal.num 1), ("y", PyVal.num 2)]) ∧
    alistGet [("points", PyVal.arr []),
      ("start", PyVal.obj [("x", PyVal.num 1), ("y", PyVal.num 2)]),
      ("end", PyVal.obj [("x", PyVal.num 3), ("y", PyVal.num 4)])] "end" =
        some (PyVal.obj [("x", PyVal.num 3), ("y", PyVal.num 4)]) ∧
    _bbox_from_path (PyVal.obj [("points", PyVal.arr []),
      ("start", PyVal.obj [("x", PyVal.num 1), ("y", PyVal.num 2)]),
      ("end", PyVal.obj [("x", PyVal.num 3), ("y", PyVal.num 4)])]) = Option.none := by
  refine ⟨rfl, rfl, rfl⟩

/-- C5 (amended): the bounding-box extractor never raises (it is a total
function of the pathData value) and returns a box exactly when the
pathData is a dict and either its "points" entry is a list (which takes
precedence even when empty, start/end being ignored then) containing an
element that is a dict whose x and y entries, defaulting to 0, are
float-coercible, or it has no list "points" entry and its start and end
are both dicts with all four coordinates, defaulting to 0,
float-coercible. -/
theorem claim_C5_amended (pd : PyVal) :
    (_bbox_from_path pd).isSome = bboxDefined pd := by
  cases pd with
  | obj kvs =>
      simp only [_bbox_from_path, bboxDefined]
      cases hpts : alistGet kvs "points" with
      | some v =>
          cases v with
          | arr pts => exact bboxFinish_collect pts
          | none => exact bboxFinish_startEnd kvs
          | bool b => exact bboxFinish_startEnd kvs
          | num q => exact bboxFinish_startEnd kvs
          | str s => exact bboxFinish_startEnd kvs
          | obj l => exact bboxFinish_startEnd kvs
      | none => exact bboxFinish_startEnd kvs
  | none => rfl
  | bool b => rfl
  | num q => rfl
  | str s => rfl
  | arr l => rfl

/-- C10: the rule-based recognizer is a function of the object list alone;
its selection-box argument is never read, so its result is identical for
any two boxes. -/
theorem claim_C10_box_independent (objs : List PyVal) (b1 b2 : PyVal) :
    _rule_based_recognize objs b1 = _rule_based_recognize objs b2 := rfl

/-- Concrete canvas for C4: a freehand stroke whose color #8B4581 lies at
RGB distance 110 from brown (more than the claimed 100, within the code's
120) and a separate freehand stroke of exact green. -/
def c4TreeObjs : List PyVal :=
  [PyVal.obj [("color", PyVal.str "#8B4581"),
     ("pathData", PyVal.obj [("tool", PyVal.str "freehand"), ("type", PyVal.str "stroke")])],
   PyVal.obj [("color", PyVal.str "#228B22"),
     ("pathData", PyVal.obj [("tool", PyVal.str "freehand"), ("type", PyVal.str "stroke")])]]

/-- Concrete canvas for C4: one single freehand stroke whose color #57681B
lies within distance 120 of brown and of green simultaneously. -/
def c4SingleObj : List PyVal :=
  [PyVal.obj [("color", PyVal.str "#57681B"),
     ("pathData", PyVal.obj [("tool", PyVal.str "freehand"), ("type", PyVal.str "stroke")])]]

/-- C4 counterexample, two parts.  First: the tree rule fires on a canvas
whose brown-side stroke has color (139,69,129), at squared distance 12100
from brown — more than the claimed 100² (and the green stroke is also
beyond 100² of brown), so under the claim the rule must not fire, yet the
code returns the tree result (its brown test uses tol=120).  Second: the
rule also fires on a single stroke list, where no separate second stroke
exists. -/
theorem claim_C4_counterexample :
    (_rule_based_recognize c4TreeObjs (PyVal.obj []) = some treeResult ∧
     hex_to_rgb (PyVal.str "#8B4581") = (139, 69, 129) ∧
     hex_to_rgb (PyVal.str "#228B22") = (34, 139, 34) ∧
     ¬((139 - 139 : ℤ) ^ 2 + (69 - 69) ^ 2 + (129 - 19) ^ 2 ≤ 100 ^ 2) ∧
     ¬((34 - 139 : ℤ) ^ 2 + (139 - 69) ^ 2 + (34 - 19) ^ 2 ≤ 100 ^ 2)) ∧
    (_rule_based_recognize c4SingleObj (PyVal.obj []) = some treeResult ∧
     c4SingleObj.length = 1) := by
  refine ⟨⟨by decide, by decide, by decide, by decide, by decide⟩, by decide, by decide⟩

/-- C4 (amended): given that rules 1–4 did not match and no rule stage
raised, the tree rule fires exactly when some truthy object is a freehand
stroke whose color lies within Euclidean RGB distance 120 of brown
(139,69,19) and some — possibly the same — truthy object is a freehand
stroke whose color lies within distance 120 of green (34,139,34)
(strokeColorTest embeds the tol=120 color_close call of the source); it
then returns the dict with label "tree" and confidence 0.88. -/
theorem claim_C4_amended (objs : List PyVal) (box : PyVal)
    (cc rc pc tc : ℕ) (tr fo : Bool)
    (hcc : count_type "circle" objs = some cc)
    (h1 : ¬(cc = 1 ∧ objs.length = 1))
    (htxt : findText objs = some Option.none)
    (hrc : count_type "rectangle" objs = some rc)
    (hpc : count_type "polygon" objs = some pc)
    (h3 : ¬(1 ≤ rc + pc ∧ 2 ≤ cc))
    (htc : triCount objs = some tc)
    (h4 : ¬(1 ≤ rc ∧ 1 ≤ tc))
    (htr : anyTruthy (strokeColorTest brown_rgb) objs = some tr)
    (hfo : anyTruthy (strokeColorTest green_rgb) objs = some fo) :
    _rule_based_recognize objs box =
      (if tr && fo then some treeResult else Option.none) := by
  have e1 : (cc == 1 && objs.length == 1) = false := by
    rw [Bool.eq_false_iff]
    intro hcl
    rw [Bool.and_eq_true, beq_iff_eq, beq_iff_eq] at hcl
    exact h1 hcl
  have e3 : (decide (1 ≤ rc + pc) && decide (2 ≤ cc)) = false := by
    rw [Bool.eq_false_iff]
    intro hcl
    rw [Bool.and_eq_true, decide_eq_true_iff, decide_eq_true_iff] at hcl
    exact h3 hcl
  have e4 : (decide (1 ≤ rc) && decide (1 ≤ tc)) = false := by
    rw [Bool.eq_false_iff]
    intro hcl
    rw [Bool.and_eq_true, decide_eq_true_iff, decide_eq_true_iff] at hcl
    exact h4 hcl
  unfold _rule_based_recognize ruleCore
  rw [hcc, htxt, hrc, hpc, htc, htr, hfo]
  simp only [e1, e3, e4, Bool.false_eq_true, if_false]
  cases tr <;> cases fo <;> rfl

/-- C4 witness: the amended theorem applied to the single-stroke canvas,
every hypothesis discharged by computation. -/
theorem claim_C4_amended_witness :
    _rule_based_recognize c4SingleObj (PyVal.obj []) = some treeResult := by
  have h := claim_C4_amended c4SingleObj (PyVal.obj []) 0 0 0 0 true true
    (by decide) (by decide) (by decide) (by decide) (by decide) (by decide)
    (by decide) (by decide) (by decide) (by decide)
  simpa using h

theorem styleFallback_rollback (fbs : BackendReply)
    (kvs : List (String × PyVal)) (v : PyVal) (sp : String)
    (hobj : alistGet kvs "objects" = some v)
    (hs2 : styleAccept (ollama_style_transfer fbs) = false) :
    style_transfer_canvas.styleFallback fbs (.obj kvs) sp =
      some (.obj [("objects", v)], true) := by
  unfold style_transfer_canvas.styleFallback
  cases hf : ollama_style_transfer fbs with
  | obj kvs2 =>
      rw [hf] at hs2
      simp only [styleAccept] at hs2
      simp only [hs2, Bool.false_eq_true, if_false]
      simp [pyGetD, alistGetD, hobj]
  | none => simp [pyGetD, alistGetD, hobj]
  | bool b => simp [pyGetD, alistGetD, hobj]
  | num q => simp [pyGetD, alistGetD, hobj]
  | str s => simp [pyGetD, alistGetD, hobj]
  | arr l => simp [pyGetD, alistGetD, hobj]

/-- C1: destructive-mode rollback.  For every canvas state carrying an
"objects" entry, if the beautify acceptance check rejects both the
primary and the fallback output, beautify_canvas_state returns the Ok
dict whose objects value is exactly the canvas state's own objects; the
same holds for style_transfer_canvas under its acceptance check.  Neither
pipeline returns an error payload in this situation. -/
theorem claim_C1_rollback (p fb ps fbs : BackendReply)
    (kvs : List (String × PyVal)) (v : PyVal) (sp : String)
    (hobj : alistGet kvs "objects" = some v)
    (hb1 : beautifyAccept (openai_beautify_canvas p) = some false)
    (hb2 : beautifyAccept (ollama_beautify_canvas fb) = some false)
    (hs1 : styleAccept (openai_style_transfer ps) = false)
    (hs2 : styleAccept (ollama_style_transfer fbs) = false) :
    beautify_canvas_state p fb (.obj kvs) = some (.obj [("objects", v)], true) ∧
    style_transfer_canvas ps fbs (.obj kvs) sp = some (.obj [("objects", v)], true) := by
  constructor
  · unfold beautify_canvas_state
    simp only [hb1]
    simp only [hb2]
    simp [pyGetD, alistGetD, hobj]
  · unfold style_transfer_canvas
    cases hm : openai_style_transfer ps with
    | obj kvs1 =>
        rw [hm] at hs1
        simp only [styleAccept] at hs1
        simp only [hs1, Bool.false_eq_true, if_false]
        exact styleFallback_rollback fbs kvs v sp hobj hs2
    | none => exact styleFallback_rollback fbs kvs v sp hobj hs2
    | bool b => exact styleFallback_rollback fbs kvs v sp hobj hs2
    | num q => exact styleFallback_rollback fbs kvs v sp hobj hs2
    | str s => exact styleFallback_rollback fbs kvs v sp hobj hs2
    | arr l => exact styleFallback_rollback fbs kvs v sp hobj hs2

/-- C1 witness: rollback observed when both backend calls raise, on a
canvas state with one object. -/
theorem claim_C1_rollback_witness :
    beautify_canvas_state (.error "boom") (.error "boom2")
        (.obj [("objects", PyVal.arr [PyVal.str "keep"])]) =
      some (.obj [("objects", PyVal.arr [PyVal.str "keep"])], true) ∧
    style_transfer_canvas (.error "boom") (.error "boom2")
        (.obj [("objects", PyVal.arr [PyVal.str "keep"])]) "oil" =
      some (.obj [("objects", PyVal.arr [PyVal.str "keep"])], true) :=
  claim_C1_rollback (.error "boom") (.error "boom2") (.error "boom") (.error "boom2")
    [("objects", PyVal.arr [PyVal.str "keep"])] (PyVal.arr [PyVal.str "keep"]) "oil"
    (by decide) (by decide) (by decide) (by decide) (by decide)

/-- Modelled from the spec: the Schema Validator for complete mode (spec
section 4.2) requires an "object" entry that is a record together with a
boolean "complete" and a numeric "confidence".  No such check exists on
the complete-mode path of the source; this definition follows the spec's
words only so the specified validator can be compared with the code's
acceptance. -/
def completeSchemaValid (r : PyVal) : Bool :=
  match r with
  | .obj kvs =>
      (match alistGet kvs "object" with | some (.obj _) => true | _ => false) &&
      (match alistGet kvs "complete" with | some (.bool _) => true | _ => false) &&
      (match alistGet kvs "confidence" with | some (.num _) => true | _ => false)
  | _ => false

/-- C6 counterexample: the decoded primary reply is the dict with the
single key "foo", which fails the complete-mode structural check, yet
complete_shape_from_canvas returns it as Ok without invoking the
fallback — the code checks only for an "error" key. -/
theorem claim_C6_counterexample :
    completeSchemaValid (.obj [("foo", PyVal.num 1)]) = false ∧
    complete_shape_from_canvas (.ok (.obj [("foo", PyVal.num 1)])) (.error "down") =
      some (.obj [("foo", PyVal.num 1)], false) :=
  ⟨by decide, by decide⟩

/-- C6 (amended): in complete mode a decoded primary reply is accepted
iff it lacks an "error" key; the object/complete/confidence structure is
never checked, so any error-free reply — schema-valid or not — is
returned Ok without fallback, and any reply with an "error" key drives
the fallback, whose own reply is returned unchecked. -/
theorem claim_C6_amended (fb : BackendReply) (r : PyVal) (b : Bool)
    (hin : pyIn "error" r = some b) :
    complete_shape_from_canvas (.ok r) fb =
      (if b then some (ollama_complete_shape fb, true) else some (r, false)) := by
  unfold complete_shape_from_canvas
  simp only [openai_complete_shape, pyNotIn, hin, Option.map_some]
  cases b <;> rfl

/-- C6 witness: the amended theorem at the structurally invalid but
error-free reply. -/
theorem claim_C6_amended_witness :
    complete_shape_from_canvas (.ok (.obj [("foo", PyVal.num 1)])) (.error "down") =
      some (.obj [("foo", PyVal.num 1)], false) := by
  have h := claim_C6_amended (.error "down") (.obj [("foo", PyVal.num 1)]) false (by decide)
  simpa using h

/-- Modelled from the spec: the Schema Validator for the
synthesize/beautify/style modes (spec section 4.2) requires an "objects"
entry that is a sequence.  It is defined only to compare the specified
validator with the acceptance checks of the code. -/
def objectsSchemaValid (r : PyVal) : Bool :=
  match r with
  | .obj kvs => match alistGet kvs "objects" with | some (.arr _) => true | _ => false
  | _ => false

/-- Decoded primary reply for the C2 counterexample: a list-valued
"objects" entry (schema-valid) alongside an "error" entry. -/
def c2Reply : PyVal := .obj [("objects", PyVal.arr []), ("error", PyVal.str "x")]

/-- C2 counterexample: the primary beautify reply parses as JSON and
passes the specified schema validator (its "objects" entry is a
sequence), yet the pipeline does not return it: the "error" key makes the
acceptance check fail, the Secondary is invoked (flag true), and with the
fallback down the rollback value is returned instead of the reply. -/
theorem claim_C2_counterexample :
    objectsSchemaValid c2Reply = true ∧
    beautify_canvas_state (.ok c2Reply) (.error "down")
        (.obj [("objects", PyVal.arr [PyVal.num 7])]) =
      some (.obj [("objects", PyVal.arr [PyVal.num 7])], true) :=
  ⟨by decide, by decide⟩

/-- Helper naming the "objects" entry a style reply is post-processed
from (model_output.get("objects", [])). -/
def styleObjectsOf (m : PyVal) : PyVal :=
  match m with
  | .obj kvs => alistGetD kvs "objects" (.arr [])
  | _ => PyVal.none

/-- Helper naming the style reply with its "objects" entry replaced
(model_output["objects"] = ...). -/
def styleWithObjects (m po : PyVal) : PyVal :=
  match m with
  | .obj kvs => .obj (alistSet kvs "objects" po)
  | _ => m

/-- C2 (amended): for every mode the Primary and Secondary backends are
framed by one shared message builder, so their framing is identical; a
primary reply is accepted exactly by the code's acceptance check — no
"error" key for synthesize/complete/recognize (plus being a dict for
recognize), no "error" key plus an "objects" key for beautify, the same
plus being a dict for style — not by the schema validator; an accepted
primary reply is returned Ok at once (for style, with its objects
post-processed) and the Secondary is never invoked; the Secondary is
invoked only when the primary reply is rejected, and its reply is
subjected to the same acceptance check in beautify/style but returned
unchecked in synthesize/complete/recognize; in recognize all of this
applies once the rule-based fast path has not matched. -/
theorem claim_C2_amended
    (p fb : BackendReply) (cs : PyVal) (sp : String)
    (objs : List PyVal) (box : PyVal)
    (scfg : SynthPrompts) (ccfg : CompletePrompts) (bcfg : BeautifyPrompts)
    (stcfg : StylePrompts) (rcfg : RecoPrompts)
    (prompt canvas_json box_json objs_json : String) :
    (openaiSynthMessages scfg prompt canvas_json = ollamaSynthMessages scfg prompt canvas_json ∧
     openaiCompleteMessages ccfg canvas_json = ollamaCompleteMessages ccfg canvas_json ∧
     openaiBeautifyMessages bcfg canvas_json = ollamaBeautifyMessages bcfg canvas_json ∧
     openaiStyleMessages stcfg canvas_json sp = ollamaStyleMessages stcfg canvas_json sp ∧
     openaiRecoMessages rcfg box_json objs_json = ollamaRecoMessages rcfg box_json objs_json) ∧
    ((pyNotIn "error" (openai_prompt_to_json p) = some true →
        prompt_to_drawings p fb = some (openai_prompt_to_json p, false)) ∧
     (∀ res, prompt_to_drawings p fb = some (res, true) →
        pyNotIn "error" (openai_prompt_to_json p) = some false ∧
        res = ollama_prompt_to_json fb)) ∧
    ((pyNotIn "error" (openai_complete_shape p) = some true →
        complete_shape_from_canvas p fb = some (openai_complete_shape p, false)) ∧
     (∀ res, complete_shape_from_canvas p fb = some (res, true) →
        pyNotIn "error" (openai_complete_shape p) = some false ∧
        res = ollama_complete_shape fb)) ∧
    ((beautifyAccept (openai_beautify_canvas p) = some true →
        beautify_canvas_state p fb cs = some (openai_beautify_canvas p, false)) ∧
     (beautifyAccept (openai_beautify_canvas p) = some false →
        beautifyAccept (ollama_beautify_canvas fb) = some true →
        beautify_canvas_state p fb cs = some (ollama_beautify_canvas fb, true)) ∧
     (∀ res, beautify_canvas_state p fb cs = some (res, true) →
        beautifyAccept (openai_beautify_canvas p) = some false)) ∧
    ((styleAccept (openai_style_transfer p) = true →
        ∀ po, _postprocess_style_objects (styleObjectsOf (openai_style_transfer p)) sp = some po →
          style_transfer_canvas p fb cs sp =
            some (styleWithObjects (openai_style_transfer p) po, false)) ∧
     (∀ res, style_transfer_canvas p fb cs sp = some (res, true) →
        styleAccept (openai_style_transfer p) = false)) ∧
    (_rule_based_recognize objs box = Option.none →
      ((recAccept (openai_recognize_objects p) = true →
          recognize_objects_in_box objs box p fb = some (openai_recognize_objects p, false)) ∧
       (∀ res, recognize_objects_in_box objs box p fb = some (res, true) →
          recAccept (openai_recognize_objects p) = false ∧
          res = ollama_recognize_objects fb))) := by
  refine ⟨⟨rfl, rfl, rfl, rfl, rfl⟩, ⟨?_, ?_⟩, ⟨?_, ?_⟩, ⟨?_, ?_, ?_⟩, ⟨?_, ?_⟩, ?_⟩
  · intro h
    unfold prompt_to_drawings
    dsimp only
    rw [h]
  · intro res hres
    unfold prompt_to_drawings at hres
    dsimp only at hres
    cases hin : pyNotIn "error" (openai_prompt_to_json p) with
    | none => rw [hin] at hres; exact absurd hres (by simp)
    | some b =>
        cases b with
        | true => rw [hin] at hres; simp at hres
        | false => rw [hin] at hres; simp at hres; exact ⟨rfl, hres.symm⟩
  · intro h
    unfold complete_shape_from_canvas
    dsimp only
    rw [h]
  · intro res hres
    unfold complete_shape_from_canvas at hres
    dsimp only at hres
    cases hin : pyNotIn "error" (openai_complete_shape p) with
    | none => rw [hin] at hres; exact absurd hres (by simp)
    | some b =>
        cases b with
        | true => rw [hin] at hres; simp at hres
        | false => rw [hin] at hres; simp at hres; exact ⟨rfl, hres.symm⟩
  · intro h
    unfold beautify_canvas_state
    dsimp only
    rw [h]
  · intro h1 h2
    unfold beautify_canvas_state
    dsimp only
    rw [h1, h2]
  · intro res hres
    unfold beautify_canvas_state at hres
    dsimp only at hres
    cases hin : beautifyAccept (openai_beautify_canvas p) with
    | none => rw [hin] at hres; exact absurd hres (by simp)
    | some b =>
        cases b with
        | true => rw [hin] at hres; simp at hres
        | false => rfl
  · intro hacc po hpo
    unfold style_transfer_canvas
    dsimp only
    cases hm : openai_style_transfer p with
    | obj kvs =>
        rw [hm] at hacc hpo
        simp only [styleAccept] at hacc
        simp only [styleObjectsOf] at hpo
        simp only [hacc, if_true, hpo, styleWithObjects]
    | none => rw [hm] at hacc; simp [styleAccept] at hacc
    | bool b => rw [hm] at hacc; simp [styleAccept] at hacc
    | num q => rw [hm] at hacc; simp [styleAccept] at hacc
    | str s => rw [hm] at hacc; simp [styleAccept] at hacc
    | arr l => rw [hm] at hacc; simp [styleAccept] at hacc
  · intro res hres
    unfold style_transfer_canvas at hres
    dsimp only at hres
    cases hm : openai_style_transfer p with
    | obj kvs =>
        rw [hm] at hres
        dsimp only at hres
        simp only [styleAccept, hm]
        cases hc : (!alistHas kvs "error" && alistHas kvs "objects") with
        | true =>
            rw [hc] at hres
            simp only [if_true] at hres
            cases hpp : _postprocess_style_objects (alistGetD kvs "objects" (.arr [])) sp with
            | none => rw [hpp] at hres; exact absurd hres (by simp)
            | some po => rw [hpp] at hres; simp at hres
        | false => rfl
    | none => simp [styleAccept, hm]
    | bool b => simp [styleAccept, hm]
    | num q => simp [styleAccept, hm]
    | str s => simp [styleAccept, hm]
    | arr l => simp [styleAccept, hm]
  · intro hrule
    constructor
    · intro hacc
      unfold recognize_objects_in_box
      dsimp only
      rw [hrule, hacc]
      simp
    · intro res hres
      unfold recognize_objects_in_box at hres
      dsimp only at hres
      rw [hrule] at hres
      cases hacc : recAccept (openai_recognize_objects p) with
      | true => rw [hacc] at hres; simp at hres
      | false =>
          rw [hacc] at hres
          simp at hres
          exact ⟨rfl, hres.symm⟩

/-- C2 witness: an accepted primary synthesize reply is returned Ok with
the fallback never invoked. -/
theorem claim_C2_amended_witness :
    prompt_to_drawings (.ok (.obj [("objects", PyVal.arr [])])) (.error "down") =
      some (.obj [("objects", PyVal.arr [])], false) := by
  have h := (claim_C2_amended (.ok (.obj [("objects", PyVal.arr [])])) (.error "down")
      (.obj []) "" [] (.obj []) ⟨"", "", "", "", "", "", ""⟩ ⟨"", "", "", "", "", "", ""⟩
      ⟨"", "", "", "", ""⟩ ⟨"", "", ""⟩ ⟨""⟩ "" "" "" "").2.1.1
  exact h (by decide)

theorem alistGet_append_some (kvs rest : List (String × PyVal)) (k : String) (w : PyVal)
    (h : alistGet kvs k = some w) : alistGet (kvs ++ rest) k = some w := by
  induction kvs with
  | nil => simp [alistGet] at h
  | cons kv tail ih =>
      simp only [alistGet, List.cons_append, List.find?_cons] at h ⊢
      cases hk : (kv.1 == k) with
      | true => simpa [hk] using h
      | false =>
          simp only [hk] at h ⊢
          exact ih h

theorem alistHas_of_get (kvs : List (String × PyVal)) (k : String) (w : PyVal)
    (h : alistGet kvs k = some w) : alistHas kvs k = true := by
  induction kvs with
  | nil => simp [alistGet] at h
  | cons kv tail ih =>
      simp only [alistGet, List.find?_cons] at h
      simp only [alistHas, List.any_cons]
      cases hk : (kv.1 == k) with
      | true => simp
      | false =>
          simp only [hk] at h
          rw [Bool.false_or]
          exact ih h

theorem pySetdefault_get (ml : List (String × PyVal)) (k k' : String) (v w : PyVal)
    (h : alistGet ml k' = some w) :
    ∃ ml', pySetdefault (.obj ml) k v = some (.obj ml') ∧ alistGet ml' k' = some w := by
  unfold pySetdefault
  cases hk : alistHas ml k with
  | true => exact ⟨ml, by simp [hk], h⟩
  | false => exact ⟨ml ++ [(k, v)], by simp [hk], alistGet_append_some ml [(k, v)] k' w h⟩

theorem alistGetD_of_get (kvs : List (String × PyVal)) (k : String) (w d : PyVal)
    (h : alistGet kvs k = some w) : alistGetD kvs k d = w := by
  simp [alistGetD, h]

def hasExplicitMeta (o : PyVal) : Bool :=
  match o with
  | .obj kvs =>
      match alistGet kvs "metadata" with
      | some (.obj ml) => (alistGetD ml "brushType" PyVal.none).truthy
      | _ => false
  | _ => false

theorem processStyleObj_explicit (db : String) (dp : PyVal)
    (kvs ml : List (String × PyVal)) (w : PyVal)
    (hm : alistGet kvs "metadata" = some (.obj ml))
    (hbt : alistGet ml "brushType" = some w)
    (hw : w.truthy = true) :
    ∃ o', processStyleObj db dp (.obj kvs) = some (o', true) := by
  have hmlne : ml.isEmpty = false := by
    cases ml with
    | nil => simp [alistGet] at hbt
    | cons a b => rfl
  have htr : (PyVal.obj ml).truthy = true := by
    simp [PyVal.truthy, hmlne]
  have hm0 : alistGetD kvs "metadata" (.obj []) = .obj ml :=
    alistGetD_of_get kvs "metadata" (.obj ml) (.obj []) hm
  have hhad : alistHas kvs "metadata" = true :=
    alistHas_of_get kvs "metadata" (.obj ml) hm
  unfold processStyleObj
  dsimp only
  rw [hm0, htr]
  simp only [if_true]
  cases himg : imageLikeObj kvs with
  | true =>
      obtain ⟨ml1, hsd1, hg1⟩ :=
        pySetdefault_get ml "drawingType" "brushType" (.str "image") w hbt
      rw [hsd1]
      dsimp only
      obtain ⟨ml2, hsd2, hg2⟩ :=
        pySetdefault_get ml1 "stampData" "brushType"
          (PyVal.obj [
            ("imageDataUrl", PyVal.pyOr (alistGetD kvs "imageDataUrl" PyVal.none)
              (alistGetD kvs "image" PyVal.none)),
            ("x", alistGetD kvs "x" (.num 0)),
            ("y", alistGetD kvs "y" (.num 0)),
            ("width", alistGetD kvs "width" PyVal.none),
            ("height", alistGetD kvs "height" PyVal.none)]) w hg1
      rw [hsd2]
      dsimp only
      have hflag : (alistHas kvs "metadata" &&
          (alistGetD ml2 "brushType" PyVal.none).truthy) = true := by
        rw [hhad, alistGetD_of_get ml2 "brushType" w PyVal.none hg2, hw]; rfl
      exact ⟨PyVal.obj (alistSet kvs "metadata" (PyVal.obj ml2)), by rw [hflag]; rfl⟩
  | false =>
      obtain ⟨ml1, hsd1, hg1⟩ :=
        pySetdefault_get ml "drawingType" "brushType" (.str "stroke") w hbt
      rw [hsd1]
      dsimp only
      simp only [pyGetD]
      obtain ⟨ml2, hsd2, hg2⟩ :=
        pySetdefault_get ml1 "brushType" "brushType"
          (alistGetD ml1 "brushType" (.str db)) w hg1
      rw [hsd2]
      dsimp only
      obtain ⟨ml3, hsd3, hg3⟩ :=
        pySetdefault_get ml2 "brushParams" "brushType"
          (alistGetD ml2 "brushParams" dp) w hg2
      rw [hsd3]
      dsimp only
      have hflag : (alistHas kvs "metadata" &&
          (alistGetD ml3 "brushType" PyVal.none).truthy) = true := by
        rw [hhad, alistGetD_of_get ml3 "brushType" w PyVal.none hg3, hw]; rfl
      exact ⟨PyVal.obj (alistSet kvs "metadata" (PyVal.obj ml3)), by rw [hflag]; rfl⟩

theorem hasExplicitMeta_elim (o : PyVal) (h : hasExplicitMeta o = true) :
    ∃ kvs ml w, o = PyVal.obj kvs ∧ alistGet kvs "metadata" = some (.obj ml) ∧
      alistGet ml "brushType" = some w ∧ w.truthy = true := by
  cases o with
  | obj kvs =>
      simp only [hasExplicitMeta] at h
      cases hm : alistGet kvs "metadata" with
      | none => rw [hm] at h; simp at h
      | some m =>
          cases m with
          | obj ml =>
              rw [hm] at h
              dsimp only at h
              cases hbt : alistGet ml "brushType" with
              | none =>
                  rw [alistGetD, hbt] at h
                  simp [PyVal.truthy] at h
              | some w =>
                  refine ⟨kvs, ml, w, rfl, hm, hbt, ?_⟩
                  rwa [alistGetD_of_get ml "brushType" w PyVal.none hbt] at h
          | none => rw [hm] at h; simp at h
          | bool b => rw [hm] at h; simp at h
          | num q => rw [hm] at h; simp at h
          | str s => rw [hm] at h; simp at h
          | arr l => rw [hm] at h; simp at h
  | none => simp [hasExplicitMeta] at h
  | bool b => simp [hasExplicitMeta] at h
  | num q => simp [hasExplicitMeta] at h
  | str s => simp [hasExplicitMeta] at h
  | arr l => simp [hasExplicitMeta] at h

theorem processList_explicit (db : String) (dp : PyVal) (objs : List PyVal)
    (h : ∀ o ∈ objs, hasExplicitMeta o = true) :
    ∃ l, processList db dp objs = some (l, !objs.isEmpty) ∧
      l.length = objs.length := by
  induction objs with
  | nil => exact ⟨[], rfl, rfl⟩
  | cons o rest ih =>
      obtain ⟨kvs, ml, w, rfl, hm, hbt, hw⟩ :=
        hasExplicitMeta_elim o (h o (List.mem_cons_self o rest))
      obtain ⟨o', ho'⟩ := processStyleObj_explicit db dp kvs ml w hm hbt hw
      obtain ⟨l, hl, hlen⟩ := ih (fun x hx => h x (List.mem_cons_of_mem _ hx))
      refine ⟨o' :: l, ?_, by simp [hlen]⟩
      unfold processList
      rw [ho', hl]
      simp

/-- C9: idempotence with respect to overlays.  When every object of the
list carries explicit metadata — the code's own notion: a "metadata" entry
that is a dict whose "brushType" is truthy, exactly what sets
had_explicit_metadata during a pass — post-processing returns the
processed list with no overlay appended: the output length equals the
input length.  A first pass stamps such metadata on every stroke object,
so a second pass over its output adds zero overlays. -/
theorem claim_C9_idempotent (sp : String) (objs : List PyVal)
    (h : ∀ o ∈ objs, hasExplicitMeta o = true) :
    ∃ l, _postprocess_style_objects (.arr objs) sp = some (.arr l) ∧
      l.length = objs.length := by
  obtain ⟨l, hl, hlen⟩ :=
    processList_explicit (_map_style_to_brush sp).1 (_map_style_to_brush sp).2 objs h
  cases objs with
  | nil =>
      refine ⟨[], ?_, rfl⟩
      unfold _postprocess_style_objects
      dsimp only
      simp only [processList]
      split
      · rfl
      · rfl
  | cons o rest =>
      refine ⟨l, ?_, hlen⟩
      unfold _postprocess_style_objects
      dsimp only
      rw [hl]
      dsimp only
      rw [if_neg (by simp)]

/-- C9 witness: one explicitly-styled stroke object with a usable path,
oil style prompt: the output still has exactly one object. -/
theorem claim_C9_witness :
    ∃ l, _postprocess_style_objects
        (.arr [PyVal.obj [("metadata", PyVal.obj [("brushType", PyVal.str "neon")]),
          ("pathData", PyVal.obj [("points",
            PyVal.arr [PyVal.obj [("x", PyVal.num 0), ("y", PyVal.num 0)]])])]])
        "oil" = some (.arr l) ∧ l.length = 1 :=
  claim_C9_idempotent "oil" _ (fun o ho => by
    rw [List.mem_singleton] at ho
    subst ho
    decide)

/-- Reply object whose metadata is a truthy non-dict, on which the
enrichment's setdefault raises AttributeError. -/
def c7BadObj : PyVal := .obj [("metadata", PyVal.str "x")]

/-- C7 counterexample: the primary style reply is accepted and its objects
list contains an object with the truthy non-dict metadata "x"; enrichment
raises and the exception propagates out of style_transfer_canvas (the
model's none) instead of degrading to a returned result. -/
theorem claim_C7_counterexample :
    style_transfer_canvas (.ok (.obj [("objects", PyVal.arr [c7BadObj])]))
      (.error "down") (.obj [("objects", PyVal.arr [])]) "oil" = Option.none := by
  decide

/-- C7 (amended): post-processing has no exception handler.  The only
degradation the code performs is passing a non-list objects payload
through unmodified; when enrichment of an accepted primary reply raises,
the exception propagates out of the style_transfer_canvas call. -/
theorem claim_C7_amended (sp : String) (v : PyVal) (p fb : BackendReply) (cs : PyVal)
    (hv : ∀ l, v ≠ PyVal.arr l)
    (hacc : styleAccept (openai_style_transfer p) = true)
    (hpp : _postprocess_style_objects (styleObjectsOf (openai_style_transfer p)) sp =
      Option.none) :
    _postprocess_style_objects v sp = some v ∧
    style_transfer_canvas p fb cs sp = Option.none := by
  constructor
  · cases v with
    | arr l => exact absurd rfl (hv l)
    | none => rfl
    | bool b => rfl
    | num q => rfl
    | str s => rfl
    | obj kvs => rfl
  · unfold style_transfer_canvas
    dsimp only
    cases hm : openai_style_transfer p with
    | obj kvs =>
        rw [hm] at hacc hpp
        simp only [styleAccept] at hacc
        simp only [styleObjectsOf] at hpp
        simp only [hacc, if_true, hpp]
    | none => rw [hm] at hacc; simp [styleAccept] at hacc
    | bool b => rw [hm] at hacc; simp [styleAccept] at hacc
    | num q => rw [hm] at hacc; simp [styleAccept] at hacc
    | str s => rw [hm] at hacc; simp [styleAccept] at hacc
    | arr l => rw [hm] at hacc; simp [styleAccept] at hacc

/-- C7 witness: a non-list payload passes through, and an accepted reply
with one bad-metadata object makes the pipeline call propagate the
exception. -/
theorem claim_C7_amended_witness :
    _postprocess_style_objects (PyVal.str "zz") "oil" = some (PyVal.str "zz") ∧
    style_transfer_canvas
        (.ok (.obj [("objects", PyVal.arr [PyVal.obj [("metadata", PyVal.str "y")]])]))
        (.error "down") (.obj []) "oil" = Option.none :=
  claim_C7_amended "oil" (PyVal.str "zz")
    (.ok (.obj [("objects", PyVal.arr [PyVal.obj [("metadata", PyVal.str "y")]])]))
    (.error "down") (.obj [])
    (fun l h => PyVal.noConfusion h) (by decide) (by decide)

/-- Source object for the C8 counterexample: line width 3. -/
def c8Obj : PyVal := .obj [("color", PyVal.str "#112233"), ("lineWidth", PyVal.num 3)]

/-- C8 counterexample: on a source object of line width 3 with the oil
default params, both synthesized overlays carry line width 3, because the
code truncates the product with int() before taking the max; the claim's
formula max(2, 3 × 1.3) = 3.9 disagrees with the produced 3. -/
theorem claim_C8_counterexample :
    ((_create_impasto_overlays c8Obj ⟨0, 10, 0, 10⟩ (_map_style_to_brush "oil").2 0).map
      (fun l => l.map (fun o => pyGetD o "lineWidth" PyVal.none))) =
      some [some (PyVal.num 3), some (PyVal.num 3)] ∧
    max (2 : ℚ) (3 * (13/10)) ≠ 3 := ⟨by decide, by decide⟩

/-- C8 (amended): whenever overlay synthesis runs on a dict source object
whose lineWidth (default 2) is a number and whose metadata brushParams
chain is readable, it produces exactly two freehand-stroke overlays whose
points are the fixed fractional offsets of the bounding box translated by
((idx mod 3) − 1) × 4 in both coordinates, whose common color is the first
entry of the object's metadata brushParams mixColors when that is a
truthy list and otherwise the source color (default black), and whose
line widths are max(2, int(lineWidth × 1.0)) and max(2, int(lineWidth ×
1.3)) — the products truncated toward zero by int() before the max. -/
theorem claim_C8_amended (kvs dl : List (String × PyVal)) (bb : Bbox) (idx : ℕ)
    (lw : ℚ) (bp mcol : PyVal)
    (hlw : alistGetD kvs "lineWidth" (.num 2) = .num lw)
    (hbp : pyGetD (alistGetD kvs "metadata" (.obj [])) "brushParams" (.obj []) = some bp)
    (hmc : pyGetD bp "mixColors" (.arr []) = some mcol) :
    ∃ s1 s2, _create_impasto_overlays (.obj kvs) bb (.obj dl) idx = some [s1, s2] ∧
      (let oc := match mcol with
        | .arr (c :: _) => c
        | _ => alistGetD kvs "color" (.str "#000000")
       let w := bb.maxX - bb.minX
       let h := bb.maxY - bb.minY
       let cx := (bb.minX + bb.maxX) / 2
       let cy := (bb.minY + bb.maxY) / 2
       let offs : ℚ := (((idx : ℤ) % 3 - 1) * 4 : ℤ)
       pyGetD s1 "color" PyVal.none = some oc ∧
       pyGetD s2 "color" PyVal.none = some oc ∧
       pyGetD s1 "lineWidth" PyVal.none =
         some (.num ((max 2 (ratTrunc (lw * 1)) : ℤ) : ℚ)) ∧
       pyGetD s2 "lineWidth" PyVal.none =
         some (.num ((max 2 (ratTrunc (lw * (13/10))) : ℤ) : ℚ)) ∧
       pyGetD s1 "pathData" PyVal.none =
         some (.obj [("tool", .str "freehand"), ("type", .str "stroke"),
           ("points", .arr [
             .obj [("x", .num (cx + (-3/10) * w + offs)), ("y", .num (cy + (-2/10) * h + offs))],
             .obj [("x", .num (cx + (-1/10) * w + offs)), ("y", .num (cy + (-25/100) * h + offs))],
             .obj [("x", .num (cx + (1/10) * w + offs)), ("y", .num (cy + (-15/100) * h + offs))]])]) ∧
       pyGetD s2 "pathData" PyVal.none =
         some (.obj [("tool", .str "freehand"), ("type", .str "stroke"),
           ("points", .arr [
             .obj [("x", .num (cx + (-4/10) * w + offs)), ("y", .num (cy + (1/10) * h + offs))],
             .obj [("x", .num (cx + 0 * w + offs)), ("y", .num (cy + (15/100) * h + offs))],
             .obj [("x", .num (cx + (35/100) * w + offs)), ("y", .num (cy + (5/100) * h + offs))]])])) := by
  unfold _create_impasto_overlays
  dsimp only
  rw [hbp]
  dsimp only
  simp only [hmc]
  simp only [hlw]
  dsimp only [pyMulCoerce, pyGetD]
  cases hdl : (PyVal.obj dl).truthy with
  | true =>
      simp only [PyVal.pyOr, hdl, if_true]
      refine ⟨_, _, rfl, ?_, ?_, ?_, ?_, ?_, ?_⟩ <;>
        simp [pyGetD, alistGetD, alistGet]
      all_goals
        cases mcol with
        | arr l => cases l with | nil => rfl | cons a b => rfl
        | none => rfl
        | bool b => rfl
        | num q => rfl
        | str s => rfl
        | obj l => rfl
  | false =>
      simp only [PyVal.pyOr, hdl, Bool.false_eq_true, if_false]
      refine ⟨_, _, rfl, ?_, ?_, ?_, ?_, ?_, ?_⟩ <;>
        simp [pyGetD, alistGetD, alistGet]
      all_goals
        cases mcol with
        | arr l => cases l with | nil => rfl | cons a b => rfl
        | none => rfl
        | bool b => rfl
        | num q => rfl
        | str s => rfl
        | obj l => rfl

/-- C8 witness: the amended theorem applied to a concrete width-3 object
on the unit-square-scaled box. -/
theorem claim_C8_amended_witness :
    ∃ s1 s2, _create_impasto_overlays
        (.obj [("color", PyVal.str "#112233"), ("lineWidth", PyVal.num 3)])
        ⟨0, 10, 0, 10⟩ (.obj []) 0 = some [s1, s2] := by
  obtain ⟨s1, s2, h, _⟩ := claim_C8_amended
    [("color", PyVal.str "#112233"), ("lineWidth", PyVal.num 3)] [] ⟨0, 10, 0, 10⟩ 0 3
    (.obj []) (.arr []) (by decide) (by decide) (by decide)
  exact ⟨s1, s2, h⟩

theorem alistSet_self (kvs : List (String × PyVal)) (k : String) (w : PyVal)
    (h : alistGet kvs k = some w) : alistSet kvs k w = kvs := by
  induction kvs with
  | nil => simp [alistGet] at h
  | cons kv tail ih =>
      obtain ⟨k1, v1⟩ := kv
      simp only [alistGet, List.find?_cons] at h
      cases hk : (k1 == k) with
      | true =>
          rw [hk] at h
          have hh : v1 = w := by
            simpa using h
          have hkey : k1 = k := by simpa using hk
          subst hkey
          subst hh
          simp [alistSet]
      | false =>
          rw [hk] at h
          simp only [alistSet]
          rw [if_neg (by simpa using hk)]
          rw [ih h]

/-- Effective metadata bindings the per-object step works on: the dict
bindings of the "metadata" entry, empty when the entry is absent, falsy,
or replaced by the `or \x7b\x7d` guard. -/
def effMeta (kvs : List (String × PyVal)) : List (String × PyVal) :=
  match alistGet kvs "metadata" with
  | some (.obj ml) => ml
  | _ => []

/-- The stampData default value the image branch's second setdefault
supplies, assembled from the object's own image fields. -/
def stampDefault (kvs : List (String × PyVal)) : PyVal :=
  .obj [
    ("imageDataUrl", PyVal.pyOr (alistGetD kvs "imageDataUrl" .none)
      (alistGetD kvs "image" .none)),
    ("x", alistGetD kvs "x" (.num 0)),
    ("y", alistGetD kvs "y" (.num 0)),
    ("width", alistGetD kvs "width" .none),
    ("height", alistGetD kvs "height" .none)]

/-- The default metadata entries of the object's branch, in the order the
setdefault chain of _postprocess_style_objects attempts them: drawingType
"image" and the assembled stampData for image-like objects; drawingType
"stroke", the style-mapped default brush and the style-mapped default
brush parameters otherwise. -/
def metaDefaults (db : String) (dp : PyVal) (kvs : List (String × PyVal)) :
    List (String × PyVal) :=
  if imageLikeObj kvs then
    [("drawingType", .str "image"), ("stampData", stampDefault kvs)]
  else
    [("drawingType", .str "stroke"), ("brushType", .str db), ("brushParams", dp)]

/-- The branch defaults the object is actually missing: exactly the
entries the setdefault chain appends to its metadata. -/
def missingDefaults (db : String) (dp : PyVal) (kvs : List (String × PyVal)) :
    List (String × PyVal) :=
  (metaDefaults db dp kvs).filter (fun kv => !alistHas (effMeta kvs) kv.1)

/-- The metadata value the per-object step writes back: the existing
effective metadata bindings, in their original order, followed by exactly
the missing branch defaults. -/
def enrichedMeta (db : String) (dp : PyVal) (kvs : List (String × PyVal)) :
    List (String × PyVal) :=
  effMeta kvs ++ missingDefaults db dp kvs

/-- Well-formedness condition under which the per-object step cannot
raise: a dict object's "metadata" entry, when present and truthy, is a
dict (a truthy non-dict makes setdefault raise AttributeError). -/
def wfMeta (o : PyVal) : Bool :=
  match o with
  | .obj kvs =>
      match alistGet kvs "metadata" with
      | Option.none => true
      | some (.obj _) => true
      | some m => !m.truthy
  | _ => true

/-- Metadata completeness: the object's metadata is a nonempty dict that
already carries every key its branch would add (drawingType and stampData
for image-like objects, drawingType, brushType and brushParams
otherwise); exactly the objects the per-object step leaves unchanged. -/
def metaComplete (o : PyVal) : Bool :=
  match o with
  | .obj kvs =>
      match alistGet kvs "metadata" with
      | some (.obj ml) =>
          !ml.isEmpty &&
          (if imageLikeObj kvs then alistHas ml "drawingType" && alistHas ml "stampData"
           else alistHas ml "drawingType" && alistHas ml "brushType" &&
             alistHas ml "brushParams")
      | _ => false
  | _ => false

/-- Exact frame relation between an input object and its processed image
under the defaults of the style prompt's brush mapping: a non-dict passes
through unchanged; a dict changes only at its "metadata" binding, whose
new value is exactly the previous effective metadata followed by
precisely the missing branch defaults (so every pre-existing metadata
entry keeps its value, and no entry beyond the branch defaults is ever
added), and an object with complete metadata is returned identically. -/
def styleFrameRel (db : String) (dp : PyVal) (o o' : PyVal) : Prop :=
  match o with
  | .obj kvs =>
      o' = PyVal.obj (alistSet kvs "metadata" (.obj (enrichedMeta db dp kvs))) ∧
      (∀ k w, alistGet (effMeta kvs) k = some w →
        alistGet (enrichedMeta db dp kvs) k = some w) ∧
      (metaComplete (.obj kvs) = true → o' = .obj kvs)
  | _ => o' = o

theorem pySetdefault_has (ml : List (String × PyVal)) (k : String) (v : PyVal)
    (h : alistHas ml k = true) : pySetdefault (.obj ml) k v = some (.obj ml) := by
  simp [pySetdefault, h]

theorem pySetdefault_not_has (ml : List (String × PyVal)) (k : String) (v : PyVal)
    (h : alistHas ml k = false) :
    pySetdefault (.obj ml) k v = some (.obj (ml ++ [(k, v)])) := by
  simp [pySetdefault, h]

theorem alistHas_append (l1 l2 : List (String × PyVal)) (k : String) :
    alistHas (l1 ++ l2) k = (alistHas l1 k || alistHas l2 k) := by
  simp [alistHas, List.any_append]

theorem alistHas_append_singleton (ml : List (String × PyVal)) (k0 : String)
    (v0 : PyVal) (k : String) (h : (k0 == k) = false) :
    alistHas (ml ++ [(k0, v0)]) k = alistHas ml k := by
  rw [alistHas_append]
  simp [alistHas, h]

theorem alistGet_of_not_has (ml : List (String × PyVal)) (k : String)
    (h : alistHas ml k = false) : alistGet ml k = Option.none := by
  induction ml with
  | nil => rfl
  | cons kv tail ih =>
      cases hk : (kv.1 == k) with
      | true =>
          simp [alistHas, hk] at h
      | false =>
          simp only [alistHas, List.any_cons, hk, Bool.false_or] at h
          simp only [alistGet, List.find?_cons, hk]
          exact ih h

theorem alistGetD_of_not_has (ml : List (String × PyVal)) (k : String) (d : PyVal)
    (h : alistHas ml k = false) : alistGetD ml k d = d := by
  simp [alistGetD, alistGet_of_not_has ml k h]

theorem meta_eq_effMeta (kvs : List (String × PyVal))
    (hwf : wfMeta (.obj kvs) = true) :
    (if (alistGetD kvs "metadata" (.obj [])).truthy
     then alistGetD kvs "metadata" (.obj []) else .obj []) = .obj (effMeta kvs) := by
  dsimp only [wfMeta] at hwf
  unfold effMeta
  cases hm : alistGet kvs "metadata" with
  | none => simp [alistGetD, hm, PyVal.truthy]
  | some m =>
      rw [hm] at hwf
      rw [alistGetD_of_get kvs "metadata" m (.obj []) hm]
      cases m with
      | obj ml =>
          cases hml : (PyVal.obj ml).truthy with
          | true => simp [hml]
          | false =>
              have hemp : ml.isEmpty = true := by
                simpa [PyVal.truthy] using hml
              rw [List.isEmpty_iff] at hemp
              simp [hml, hemp]
      | none => simp [PyVal.truthy]
      | bool b =>
          dsimp only at hwf
          have : (PyVal.bool b).truthy = false := by
            simpa using hwf
          simp [this]
      | num q =>
          dsimp only at hwf
          have : (PyVal.num q).truthy = false := by
            simpa using hwf
          simp [this]
      | str s =>
          dsimp only at hwf
          have : (PyVal.str s).truthy = false := by
            simpa using hwf
          simp [this]
      | arr l =>
          dsimp only at hwf
          have : (PyVal.arr l).truthy = false := by
            simpa using hwf
          simp [this]

theorem metaComplete_get (kvs : List (String × PyVal))
    (h : metaComplete (.obj kvs) = true) :
    alistGet kvs "metadata" = some (.obj (effMeta kvs)) := by
  dsimp only [metaComplete] at h
  cases hm : alistGet kvs "metadata" with
  | none => rw [hm] at h; simp at h
  | some m =>
      rw [hm] at h
      cases m with
      | obj ml => simp [effMeta, hm]
      | none => simp at h
      | bool b => simp at h
      | num q => simp at h
      | str s => simp at h
      | arr l => simp at h

theorem missingDefaults_of_complete (db : String) (dp : PyVal)
    (kvs : List (String × PyVal)) (h : metaComplete (.obj kvs) = true) :
    missingDefaults db dp kvs = [] := by
  dsimp only [metaComplete] at h
  cases hm : alistGet kvs "metadata" with
  | none => rw [hm] at h; simp at h
  | some m =>
      rw [hm] at h
      cases m with
      | obj ml =>
          have heff : effMeta kvs = ml := by simp [effMeta, hm]
          cases himg : imageLikeObj kvs with
          | true =>
              rw [himg] at h
              simp only [if_true, Bool.and_eq_true] at h
              simp [missingDefaults, metaDefaults, himg, heff, h.2.1, h.2.2]
          | false =>
              rw [himg] at h
              simp only [Bool.false_eq_true, if_false, Bool.and_eq_true] at h
              simp [missingDefaults, metaDefaults, himg, heff,
                h.2.1.1, h.2.1.2, h.2.2]
      | none => simp at h
      | bool b => simp at h
      | num q => simp at h
      | str s => simp at h
      | arr l => simp at h

/-- Exact effect of the per-object step on a dict object with well-formed
metadata: the object is written back with its metadata entry set to the
previous effective metadata followed by exactly the missing branch
defaults, and the explicitness flag is the had_meta test conjoined with
the truthiness of the final metadata's brushType. -/
theorem processStyleObj_exact (db : String) (dp : PyVal)
    (kvs : List (String × PyVal)) (hwf : wfMeta (.obj kvs) = true) :
    processStyleObj db dp (.obj kvs) =
      some (.obj (alistSet kvs "metadata" (.obj (enrichedMeta db dp kvs))),
        alistHas kvs "metadata" &&
          (alistGetD (enrichedMeta db dp kvs) "brushType" PyVal.none).truthy) := by
  have hmeta := meta_eq_effMeta kvs hwf
  unfold processStyleObj
  dsimp only
  rw [hmeta]
  cases himg : imageLikeObj kvs with
  | true =>
      rw [if_pos rfl]
      cases hd : alistHas (effMeta kvs) "drawingType" with
      | true =>
          rw [pySetdefault_has _ _ _ hd]
          dsimp only
          cases hs : alistHas (effMeta kvs) "stampData" with
          | true =>
              rw [pySetdefault_has _ _ _ hs]
              dsimp only
              have hme : enrichedMeta db dp kvs = effMeta kvs := by
                simp [enrichedMeta, missingDefaults, metaDefaults, himg, hd, hs]
              rw [hme]
          | false =>
              rw [pySetdefault_not_has _ _ _ hs]
              dsimp only
              have hme : enrichedMeta db dp kvs =
                  effMeta kvs ++ [("stampData", stampDefault kvs)] := by
                simp [enrichedMeta, missingDefaults, metaDefaults, himg, hd, hs]
              rw [hme]
              rfl
      | false =>
          rw [pySetdefault_not_has _ _ _ hd]
          dsimp only
          have h1 : alistHas (effMeta kvs ++ [("drawingType", PyVal.str "image")])
              "stampData" = alistHas (effMeta kvs) "stampData" :=
            alistHas_append_singleton _ _ _ _ (by decide)
          cases hs : alistHas (effMeta kvs) "stampData" with
          | true =>
              rw [pySetdefault_has _ _ _ (h1.trans hs)]
              dsimp only
              have hme : enrichedMeta db dp kvs =
                  effMeta kvs ++ [("drawingType", PyVal.str "image")] := by
                simp [enrichedMeta, missingDefaults, metaDefaults, himg, hd, hs]
              rw [hme]
          | false =>
              rw [pySetdefault_not_has _ _ _ (h1.trans hs)]
              dsimp only
              have hme : enrichedMeta db dp kvs =
                  (effMeta kvs ++ [("drawingType", PyVal.str "image")]) ++
                    [("stampData", stampDefault kvs)] := by
                simp [enrichedMeta, missingDefaults, metaDefaults, himg, hd, hs]
              rw [hme]
              rfl
  | false =>
      rw [if_neg Bool.false_ne_true]
      cases hd : alistHas (effMeta kvs) "drawingType" with
      | true =>
          rw [pySetdefault_has _ _ _ hd]
          dsimp only [pyGetD]
          cases hb : alistHas (effMeta kvs) "brushType" with
          | true =>
              rw [pySetdefault_has _ _ _ hb]
              dsimp only [pyGetD]
              cases hp : alistHas (effMeta kvs) "brushParams" with
              | true =>
                  rw [pySetdefault_has _ _ _ hp]
                  dsimp only
                  have hme : enrichedMeta db dp kvs = effMeta kvs := by
                    simp [enrichedMeta, missingDefaults, metaDefaults,
                      himg, hd, hb, hp]
                  rw [hme]
              | false =>
                  rw [alistGetD_of_not_has _ _ _ hp,
                    pySetdefault_not_has _ _ _ hp]
                  dsimp only
                  have hme : enrichedMeta db dp kvs =
                      effMeta kvs ++ [("brushParams", dp)] := by
                    simp [enrichedMeta, missingDefaults, metaDefaults,
                      himg, hd, hb, hp]
                  rw [hme]
          | false =>
              rw [alistGetD_of_not_has _ _ _ hb,
                pySetdefault_not_has _ _ _ hb]
              dsimp only [pyGetD]
              have h2 : alistHas (effMeta kvs ++ [("brushType", PyVal.str db)])
                  "brushParams" = alistHas (effMeta kvs) "brushParams" :=
                alistHas_append_singleton _ _ _ _ (by decide)
              cases hp : alistHas (effMeta kvs) "brushParams" with
              | true =>
                  rw [pySetdefault_has _ _ _ (h2.trans hp)]
                  dsimp only
                  have hme : enrichedMeta db dp kvs =
                      effMeta kvs ++ [("brushType", PyVal.str db)] := by
                    simp [enrichedMeta, missingDefaults, metaDefaults,
                      himg, hd, hb, hp]
                  rw [hme]
              | false =>
                  rw [alistGetD_of_not_has _ _ _ (h2.trans hp),
                    pySetdefault_not_has _ _ _ (h2.trans hp)]
                  dsimp only
                  have hme : enrichedMeta db dp kvs =
                      (effMeta kvs ++ [("brushType", PyVal.str db)]) ++
                        [("brushParams", dp)] := by
                    simp [enrichedMeta, missingDefaults, metaDefaults,
                      himg, hd, hb, hp]
                  rw [hme]
      | false =>
          rw [pySetdefault_not_has _ _ _ hd]
          dsimp only [pyGetD]
          have h1 : alistHas (effMeta kvs ++ [("drawingType", PyVal.str "stroke")])
              "brushType" = alistHas (effMeta kvs) "brushType" :=
            alistHas_append_singleton _ _ _ _ (by decide)
          cases hb : alistHas (effMeta kvs) "brushType" with
          | true =>
              rw [pySetdefault_has _ _ _ (h1.trans hb)]
              dsimp only [pyGetD]
              have h2 : alistHas (effMeta kvs ++ [("drawingType", PyVal.str "stroke")])
                  "brushParams" = alistHas (effMeta kvs) "brushParams" :=
                alistHas_append_singleton _ _ _ _ (by decide)
              cases hp : alistHas (effMeta kvs) "brushParams" with
              | true =>
                  rw [pySetdefault_has _ _ _ (h2.trans hp)]
                  dsimp only
                  have hme : enrichedMeta db dp kvs =
                      effMeta kvs ++ [("drawingType", PyVal.str "stroke")] := by
                    simp [enrichedMeta, missingDefaults, metaDefaults,
                      himg, hd, hb, hp]
                  rw [hme]
              | false =>
                  rw [alistGetD_of_not_has _ _ _ (h2.trans hp),
                    pySetdefault_not_has _ _ _ (h2.trans hp)]
                  dsimp only
                  have hme : enrichedMeta db dp kvs =
                      (effMeta kvs ++ [("drawingType", PyVal.str "stroke")]) ++
                        [("brushParams", dp)] := by
                    simp [enrichedMeta, missingDefaults, metaDefaults,
                      himg, hd, hb, hp]
                  rw [hme]
          | false =>
              rw [alistGetD_of_not_has _ _ _ (h1.trans hb),
                pySetdefault_not_has _ _ _ (h1.trans hb)]
              dsimp only [pyGetD]
              have h2 : alistHas ((effMeta kvs ++
                  [("drawingType", PyVal.str "stroke")]) ++
                  [("brushType", PyVal.str db)]) "brushParams" =
                  alistHas (effMeta kvs) "brushParams" :=
                (alistHas_append_singleton _ _ _ _ (by decide)).trans
                  (alistHas_append_singleton _ _ _ _ (by decide))
              cases hp : alistHas (effMeta kvs) "brushParams" with
              | true =>
                  rw [pySetdefault_has _ _ _ (h2.trans hp)]
                  dsimp only
                  have hme : enrichedMeta db dp kvs =
                      (effMeta kvs ++ [("drawingType", PyVal.str "stroke")]) ++
                        [("brushType", PyVal.str db)] := by
                    simp [enrichedMeta, missingDefaults, metaDefaults,
                      himg, hd, hb, hp]
                  rw [hme]
              | false =>
                  rw [alistGetD_of_not_has _ _ _ (h2.trans hp),
                    pySetdefault_not_has _ _ _ (h2.trans hp)]
                  dsimp only
                  have hme : enrichedMeta db dp kvs =
                      ((effMeta kvs ++ [("drawingType", PyVal.str "stroke")]) ++
                        [("brushType", PyVal.str db)]) ++
                        [("brushParams", dp)] := by
                    simp [enrichedMeta, missingDefaults, metaDefaults,
                      himg, hd, hb, hp]
                  rw [hme]

theorem processStyleObj_frame (db : String) (dp : PyVal) (o : PyVal)
    (hwf : wfMeta o = true) :
    ∃ o' e, processStyleObj db dp o = some (o', e) ∧ styleFrameRel db dp o o' := by
  cases o with
  | obj kvs =>
      refine ⟨_, _, processStyleObj_exact db dp kvs hwf, rfl, ?_, ?_⟩
      · intro k w hk
        exact alistGet_append_some _ _ _ _ hk
      · intro hcomp
        have hms := missingDefaults_of_complete db dp kvs hcomp
        have hget := metaComplete_get kvs hcomp
        have hme : enrichedMeta db dp kvs = effMeta kvs := by
          unfold enrichedMeta
          rw [hms, List.append_nil]
        rw [hme]
        exact congrArg PyVal.obj (alistSet_self kvs "metadata" (.obj (effMeta kvs)) hget)
  | none => exact ⟨PyVal.none, false, rfl, rfl⟩
  | bool b => exact ⟨PyVal.bool b, false, rfl, rfl⟩
  | num q => exact ⟨PyVal.num q, false, rfl, rfl⟩
  | str s => exact ⟨PyVal.str s, false, rfl, rfl⟩
  | arr l => exact ⟨PyVal.arr l, false, rfl, rfl⟩

theorem processList_frame (db : String) (dp : PyVal) (objs : List PyVal)
    (hwf : ∀ o ∈ objs, wfMeta o = true) :
    ∃ l e, processList db dp objs = some (l, e) ∧
      List.Forall₂ (styleFrameRel db dp) objs l := by
  induction objs with
  | nil => exact ⟨[], false, rfl, List.Forall₂.nil⟩
  | cons o rest ih =>
      obtain ⟨o', e, ho, hrel⟩ :=
        processStyleObj_frame db dp o (hwf o (List.mem_cons_self o rest))
      obtain ⟨l, e2, hl, hrels⟩ := ih (fun x hx => hwf x (List.mem_cons_of_mem _ hx))
      refine ⟨o' :: l, e || e2, ?_, List.Forall₂.cons hrel hrels⟩
      unfold processList
      rw [ho, hl]

/-- C3 (amended): for every reply objects list whose entries have
well-formed metadata, whenever post-processing returns a result, the
result is the processed originals in their original order followed by the
(possibly empty) overlay suffix, and each processed object is related to
its original by the exact frame relation under the style prompt's mapped
defaults: non-dicts pass through unchanged; a dict changes only at its
"metadata" binding, whose new value is exactly the previous effective
metadata followed by precisely the missing default entries of its branch
(drawingType "image" and the assembled stampData for image-like objects,
drawingType "stroke", the mapped default brushType and the mapped default
brushParams otherwise), so every existing metadata entry is preserved, no
entry beyond the branch defaults is added, and an object whose metadata
already carries every default key is returned untouched.  Objects with
partial metadata do gain the missing defaults, which corrects the claim's
"left untouched"; the caller's canvasState objects never reach this
function (the rollback path returns them verbatim, claim C1). -/
theorem claim_C3_amended (sp : String) (objs : List PyVal) (res : PyVal)
    (hwf : ∀ o ∈ objs, wfMeta o = true)
    (hres : _postprocess_style_objects (.arr objs) sp = some res) :
    ∃ l ov, res = .arr (l ++ ov) ∧
      List.Forall₂
        (styleFrameRel (_map_style_to_brush sp).1 (_map_style_to_brush sp).2)
        objs l := by
  obtain ⟨l, e, hl, hrels⟩ :=
    processList_frame (_map_style_to_brush sp).1 (_map_style_to_brush sp).2 objs hwf
  unfold _postprocess_style_objects at hres
  dsimp only at hres
  rw [hl] at hres
  dsimp only at hres
  split at hres
  · cases hov : overlayList (_map_style_to_brush sp).2 0 l with
    | none => rw [hov] at hres; exact absurd hres (by simp)
    | some ov =>
        rw [hov] at hres
        simp only [Option.some_inj] at hres
        exact ⟨l, ov, hres.symm, hrels⟩
  · simp only [Option.some_inj] at hres
    exact ⟨l, [], by rw [← hres, List.append_nil], hrels⟩

/-- C3 counterexample: an object already carrying explicit metadata
(brushType "neon" — the code's own notion of explicit) is not left
untouched: post-processing adds drawingType and brushParams defaults into
its metadata, so the output object differs from the input object. -/
theorem claim_C3_counterexample :
    _postprocess_style_objects
        (.arr [PyVal.obj [("metadata", PyVal.obj [("brushType", PyVal.str "neon")])]]) "" =
      some (.arr [PyVal.obj [("metadata", PyVal.obj [("brushType", PyVal.str "neon"),
        ("drawingType", PyVal.str "stroke"), ("brushParams", PyVal.obj [])])]]) ∧
    PyVal.obj [("metadata", PyVal.obj [("brushType", PyVal.str "neon"),
        ("drawingType", PyVal.str "stroke"), ("brushParams", PyVal.obj [])])] ≠
      PyVal.obj [("metadata", PyVal.obj [("brushType", PyVal.str "neon")])] :=
  ⟨by decide, by decide⟩

/-- C3 witness: the amended theorem applied to a one-object list (an
empty dict) with a non-oil prompt. -/
theorem claim_C3_amended_witness :
    ∃ l ov, PyVal.arr [PyVal.obj [("metadata", PyVal.obj [("drawingType", PyVal.str "stroke"),
        ("brushType", PyVal.str "normal"), ("brushParams", PyVal.obj [])])]] =
      .arr (l ++ ov) ∧
    List.Forall₂
      (styleFrameRel (_map_style_to_brush "x").1 (_map_style_to_brush "x").2)
      [PyVal.obj []] l :=
  claim_C3_amended "x" [PyVal.obj []] _
    (fun o ho => by rw [List.mem_singleton] at ho; subst ho; decide) (by decide)
